import Mathlib

/-!
# Verification of the GSheetKen sheet-synchronization scripts

Shallow embedding of the Google Apps Script code in
`Create&DeleteSheet&InportingRowBasedOnStatusChange.md` (the functions
`onEdit`, `syncSheets`, `createNewSheet`, `backupSheetData` and the `CONFIG`
object) over an explicit grid model of a spreadsheet, followed by theorems
about the embedded code.

Host-API semantics reproduced by the model:
* a sheet is a grid of cells; each cell carries a value (a string, `""` is
  the empty cell), a background color, a font weight, and a border flag;
* `getLastRow` returns the position of the last row that has content, where
  content means a non-empty value (writing `""` into a cell, or setting only
  formatting, does not create content);
* `getLastColumn` returns the position of the last column that has content;
* reading an unwritten cell yields the empty cell; writes extend the grid
  as needed;
* `insertSheet` throws if a sheet with that name already exists;
* an uncaught exception aborts the rest of the run but keeps all mutations
  performed so far (JS exception semantics).
-/

namespace GSheet

/-- One cell of a sheet grid: a value (`""` is the empty cell), a background
color, a font weight, and whether a border has been set. -/
structure Cell where
  value : String
  background : String
  fontWeight : String
  border : Bool
deriving Repr, DecidableEq

/-- The empty (never written) cell, as the host presents it. -/
def emptyCell : Cell := { value := "", background := "#ffffff", fontWeight := "normal", border := false }

/-- A sheet grid: a list of rows of cells.  Cells beyond the written region
read as `emptyCell`. -/
abbrev Grid := List (List Cell)

/-- Update position `i` (0-based) of a list, padding with `d` as needed so the
position exists. -/
def updAt (d : α) : Nat → (α → α) → List α → List α
  | 0, f, [] => [f d]
  | 0, f, x :: xs => f x :: xs
  | n + 1, f, [] => d :: updAt d n f []
  | n + 1, f, x :: xs => x :: updAt d n f xs

/-- Read the cell at row `r`, column `c` (1-based, as in the host API). -/
def getCell (g : Grid) (r c : Nat) : Cell :=
  (g.getD (r - 1) []).getD (c - 1) emptyCell

/-- Apply `f` to the cell at row `r`, column `c` (1-based), padding the grid
with empty cells as needed. -/
def setCell (g : Grid) (r c : Nat) (f : Cell → Cell) : Grid :=
  updAt [] (r - 1) (fun row => updAt emptyCell (c - 1) f row) g

/-- The value of the cell at `(r, c)`. -/
def valueAt (g : Grid) (r c : Nat) : String := (getCell g r c).value

/-- `range.setValue(v)` on a single cell. -/
def setValue (g : Grid) (r c : Nat) (v : String) : Grid :=
  setCell g r c (fun cl => { cl with value := v })

/-- Write the values `vs` into row `r` starting at column `c`
(one row of `range.setValues`). -/
def setRow (g : Grid) (r c : Nat) : List String → Grid
  | [] => g
  | v :: vs => setRow (setValue g r c v) r (c + 1) vs

/-- `range.setValues(m)`: write the matrix `m` starting at `(r, c)`. -/
def setBlock (g : Grid) (r c : Nat) : List (List String) → Grid
  | [] => g
  | row :: rows => setBlock (setRow g r c row) (r + 1) c rows

/-- Set the background of the cell at `(r, c)`. -/
def setBG (g : Grid) (r c : Nat) (b : String) : Grid :=
  setCell g r c (fun cl => { cl with background := b })

/-- Write the backgrounds `bs` into row `r` starting at column `c`. -/
def setBGRow (g : Grid) (r c : Nat) : List String → Grid
  | [] => g
  | b :: bs => setBGRow (setBG g r c b) r (c + 1) bs

/-- `range.setBackgrounds(m)`: write the background matrix `m` at `(r, c)`. -/
def setBGBlock (g : Grid) (r c : Nat) : List (List String) → Grid
  | [] => g
  | row :: rows => setBGBlock (setBGRow g r c row) (r + 1) c rows

/-- Apply a style-only update `f` to the `n` cells of row `r` starting at
column `c` (models chained `setFontWeight`/`setBackground`/`setBorder` on a
one-row range). -/
def setRowStyle (g : Grid) (r c : Nat) : Nat → (Cell → Cell) → Grid
  | 0, _ => g
  | n + 1, f => setRowStyle (setCell g r c f) r (c + 1) n f

/-- One row of `range.getValues()`: the `n` values of row `r` starting at
column `c`, read left to right. -/
def getRowValues (g : Grid) (r c : Nat) : Nat → List String
  | 0 => []
  | n + 1 => valueAt g r c :: getRowValues g r (c + 1) n

/-- `range.getValues()` on an `nr × nc` range at `(r, c)`, read top to
bottom. -/
def getBlockValues (g : Grid) (r c : Nat) : Nat → Nat → List (List String)
  | 0, _ => []
  | nr + 1, nc => getRowValues g r c nc :: getBlockValues g (r + 1) c nr nc

/-- One row of `range.getBackgrounds()`. -/
def getRowBGs (g : Grid) (r c : Nat) : Nat → List String
  | 0 => []
  | n + 1 => (getCell g r c).background :: getRowBGs g r (c + 1) n

/-- `range.getBackgrounds()` on an `nr × nc` range at `(r, c)`. -/
def getBlockBGs (g : Grid) (r c : Nat) : Nat → Nat → List (List String)
  | 0, _ => []
  | nr + 1, nc => getRowBGs g r c nc :: getBlockBGs g (r + 1) c nr nc

/-- A cell has content when its value is non-empty (the host's notion used by
`getLastRow`/`getLastColumn`). -/
def cellHasContent (cl : Cell) : Bool := cl.value ≠ ""

/-- A row has content when some cell in it has content. -/
def rowHasContent (row : List Cell) : Bool := row.any cellHasContent

/-- `sheet.getLastRow()`: the position of the last row that has content
(0 when the grid has no content at all). -/
def getLastRow : Grid → Nat
  | [] => 0
  | row :: rest =>
    match getLastRow rest with
    | 0 => if rowHasContent row then 1 else 0
    | n + 1 => n + 2

/-- The last position in a row holding a non-empty value (0 if none). -/
def rowLastCol : List Cell → Nat
  | [] => 0
  | cl :: rest =>
    match rowLastCol rest with
    | 0 => if cellHasContent cl then 1 else 0
    | n + 1 => n + 2

/-- `sheet.getLastColumn()`: the position of the last column that has content. -/
def getLastColumn (g : Grid) : Nat :=
  g.foldr (fun row a => max (rowLastCol row) a) 0

/-- A named sheet. -/
structure Sheet where
  name : String
  grid : Grid
deriving Repr, DecidableEq

/-- The spreadsheet: its ordered list of sheets. -/
abbrev Spreadsheet := List Sheet

/-- `ss.getSheetByName(n)`: the first sheet named `n`, if any. -/
def getSheetByName : Spreadsheet → String → Option Sheet
  | [], _ => none
  | sh :: rest, n => if sh.name = n then some sh else getSheetByName rest n

/-- The names of all sheets, in order (`ss.getSheets().map(s => s.getName())`). -/
def sheetNames (ss : Spreadsheet) : List String := ss.map Sheet.name

/-- Replace the grid of the first sheet named `n` by `f` of it (mutating a
sheet object held by reference in the script). -/
def updateSheet : Spreadsheet → String → (Grid → Grid) → Spreadsheet
  | [], _, _ => []
  | sh :: rest, n, f =>
    if sh.name = n then { sh with grid := f sh.grid } :: rest
    else sh :: updateSheet rest n f

/-- `ss.deleteSheet(sheet)`: remove the first sheet named `n`. -/
def deleteSheetByName : Spreadsheet → String → Spreadsheet
  | [], _ => []
  | sh :: rest, n => if sh.name = n then rest else sh :: deleteSheetByName rest n

/-- Insert a brand-new empty sheet at the end of the spreadsheet.
(`createNewSheet` calls `insertSheet` and then `moveActiveSheet(numSheets)`,
so the net position is the end; the position is irrelevant to every claim.) -/
def insertSheetAtEnd (ss : Spreadsheet) (n : String) : Spreadsheet :=
  ss ++ [{ name := n, grid := [] }]

/-! ## The script's configuration and outcome structures -/

/-- The script's `CONFIG` object. -/
structure Config where
  controlSheet : String
  dataSaverSheet : String
  nameStartRow : Nat
  nameEndRow : Nat
  nameColumn : Nat

/-- `CONFIG` as defined in the source. -/
def CONFIG : Config :=
  { controlSheet := "DataValidation"
    dataSaverSheet := "DataSaver"
    nameStartRow := 2
    nameEndRow := 10
    nameColumn := 1 }

/-- `protectedSheets` as defined inside `syncSheets`: sheets that are never
deleted. -/
def protectedSheets : List String := [CONFIG.controlSheet, CONFIG.dataSaverSheet, "Sheet1"]

/-- The ways a run can terminate with an uncaught exception.
`sheetExists` is the host's error for `insertSheet` on a taken name.
`archiveFailed`/`appendFailed` stand for a host-level write failure inside
`backupSheetData` resp. `appendRow` (the script's own logic in those calls is
total, so a host fault is the only way they can fail); the fault points are
driven by Boolean oracles passed to the run. -/
inductive SyncErr where
  | sheetExists (name : String)
  | archiveFailed (name : String)
  | appendFailed (name : String)
deriving Repr, DecidableEq

/-- The `Logger.log` calls the script makes, as structured entries
(`createdSheet n` is `Created sheet: n`, `backedUpAndDeleted n` is
`Backed up and deleted sheet: n`, `movedRow r v` is `Moved row r to sheet: v`,
`syncCompleted` is `Sheet sync completed!`). -/
inductive LogEntry where
  | createdSheet (name : String)
  | backedUpAndDeleted (name : String)
  | movedRow (row : Nat) (target : String)
  | syncCompleted
deriving Repr, DecidableEq

/-- The `SpreadsheetApp.getUi().alert(...)` calls the script makes.
`controlSheetNotFound` is `Error: "DataValidation" sheet not found!`;
`targetSheetNotFound v` is `Sheet "v" does not exist.`. -/
inductive Alert where
  | controlSheetNotFound
  | targetSheetNotFound (name : String)
deriving Repr, DecidableEq

/-- The observable outcome of a run: the spreadsheet afterwards, the alerts
and logs emitted, the names passed to `createNewSheet` and the names deleted
(in order), and the uncaught exception if the run aborted.  Mutations made
before an exception persist, as in JS. -/
structure SyncResult where
  ss : Spreadsheet
  alerts : List Alert
  logs : List LogEntry
  created : List String
  deleted : List String
  err : Option SyncErr
deriving Repr, DecidableEq

/-- A run outcome with nothing to report. -/
def emptyResult (ss : Spreadsheet) : SyncResult :=
  { ss := ss, alerts := [], logs := [], created := [], deleted := [], err := none }

/-! ## `backupSheetData` -/

/-- The `.setFontWeight("bold").setBackground("#fff2cc").setBorder(...)`
styling applied to the backup header row. -/
def backupHeaderStyle (cl : Cell) : Cell :=
  { cl with fontWeight := "bold", background := "#fff2cc", border := true }

/-- `backupSheetData(sourceSheet, dataSaverSheet)`: append a timestamped
header line, then the source's full values and backgrounds (or a
`(No data to backup)` marker), then write `""` into the cell at
`nextRow + lastRow + 2` (the source's `Add a blank row for separation` step),
into the archive grid.  `now` is the `new Date()` timestamp. -/
def backupSheetData (now : String) (source : Sheet) (saver : Grid) : Grid :=
  let lastRow := getLastRow source.grid
  let lastColumn := getLastColumn source.grid
  let nextRow := getLastRow saver + 1
  let g := setValue saver nextRow 1 now
  let g := setValue g nextRow 2 source.name
  let g := setValue g nextRow 3 "--- Data Below ---"
  let g := setRowStyle g nextRow 1 3 backupHeaderStyle
  let g :=
    if lastRow > 0 ∧ lastColumn > 0 then
      let sourceData := getBlockValues source.grid 1 1 lastRow lastColumn
      let sourceFormats := getBlockBGs source.grid 1 1 lastRow lastColumn
      let g := setBlock g (nextRow + 1) 1 sourceData
      setBGBlock g (nextRow + 1) 1 sourceFormats
    else
      setValue g (nextRow + 1) 1 "(No data to backup)"
  setValue g (nextRow + lastRow + 2) 1 ""

/-! ## `syncSheets` -/

/-- The names read from the control range `A2:A10`:
`nameRange.getValues().flat().filter(name => name !== "")`. -/
def readControlNames (controlGrid : Grid) : List String :=
  ((getBlockValues controlGrid CONFIG.nameStartRow CONFIG.nameColumn
      (CONFIG.nameEndRow - CONFIG.nameStartRow + 1) 1).flatten).filter (fun n => n ≠ "")

/-- The control list a run of `syncSheets` on `ss` would read ([] when the
control sheet is missing). -/
def controlNamesOf (ss : Spreadsheet) : List String :=
  match getSheetByName ss CONFIG.controlSheet with
  | none => []
  | some c => readControlNames c.grid

/-- The `.setFontWeight("bold").setBackground("#f3f3f3")` styling applied to
the `DataSaver` header row on creation. -/
def dataSaverHeaderStyle (cl : Cell) : Cell :=
  { cl with fontWeight := "bold", background := "#f3f3f3" }

/-- The header grid written into a freshly created `DataSaver` sheet. -/
def dataSaverHeaderGrid : Grid :=
  setRowStyle (setBlock [] 1 1 [["Deleted Date", "Sheet Name", "Data Starts Below"]])
    1 1 3 dataSaverHeaderStyle

/-- The `Get or create DataSaver sheet` step of `syncSheets`: if absent,
insert it and write the bold, `#f3f3f3`-background header row
`Deleted Date | Sheet Name | Data Starts Below`.  (The `insertSheet` here is
guarded by the `getSheetByName` check, so it cannot hit a duplicate name;
the new sheet's grid is empty, so writing the header produces
`dataSaverHeaderGrid`.) -/
def ensureDataSaver (ss : Spreadsheet) : Spreadsheet :=
  match getSheetByName ss CONFIG.dataSaverSheet with
  | some _ => ss
  | none =>
    updateSheet (insertSheetAtEnd ss CONFIG.dataSaverSheet) CONFIG.dataSaverSheet
      (fun g =>
        let g := setBlock g 1 1 [["Deleted Date", "Sheet Name", "Data Starts Below"]]
        setRowStyle g 1 1 3 dataSaverHeaderStyle)

/-- Step 1 of `syncSheets`: `names.forEach(name => if (!existingSheetNames.includes(name)) createNewSheet(...))`.
`snap` is the `existingSheetNames` snapshot taken before the loop.  A second
`insertSheet` with a name created earlier in the same loop throws
(`sheetExists`), which aborts the loop with the state reached so far. -/
def createLoop (snap : List String) : List String → SyncResult → SyncResult
  | [], acc => acc
  | n :: rest, acc =>
    if n ∈ snap then createLoop snap rest acc
    else if n ∈ sheetNames acc.ss then { acc with err := some (SyncErr.sheetExists n) }
    else
      createLoop snap rest
        { acc with
          ss := insertSheetAtEnd acc.ss n
          created := acc.created ++ [n]
          logs := acc.logs ++ [LogEntry.createdSheet n] }

/-- Step 2 of `syncSheets`: for each sheet of the pre-loop snapshot that is
neither in `names` nor protected, run `backupSheetData` on it and then delete
it.  `arch s = false` makes the backup write for sheet `s` fail with a host
error, which aborts the loop (uncaught exception) with the state reached so
far — the source wraps no try/catch around the backup. -/
def deleteLoop (now : String) (arch : String → Bool) (names : List String) :
    List String → SyncResult → SyncResult
  | [], acc => acc
  | s :: rest, acc =>
    if s ∈ names ∨ s ∈ protectedSheets then deleteLoop now arch names rest acc
    else
      match getSheetByName acc.ss s with
      | none => deleteLoop now arch names rest acc
      | some sh =>
        if arch s then
          deleteLoop now arch names rest
            { acc with
              ss := deleteSheetByName
                      (updateSheet acc.ss CONFIG.dataSaverSheet (fun g => backupSheetData now sh g)) s
              deleted := acc.deleted ++ [s]
              logs := acc.logs ++ [LogEntry.backedUpAndDeleted s] }
        else { acc with err := some (SyncErr.archiveFailed s) }

/-- The body of `syncSheets` once the control-sheet guard has passed:
get-or-create `DataSaver` (with its header), read the control names, snapshot
the existing sheet names, create the missing sheets, then back up and delete
the unlisted, unprotected ones.  An exception in either loop aborts the rest
of the run. -/
def syncSheetsBody (now : String) (arch : String → Bool) (ss : Spreadsheet)
    (controlSheet0 : Sheet) : SyncResult :=
  let ss1 := ensureDataSaver ss
  let names := readControlNames controlSheet0.grid
  let existingSheetNames := sheetNames ss1
  let acc1 := createLoop existingSheetNames names (emptyResult ss1)
  if acc1.err = none then
    let acc2 := deleteLoop now arch names existingSheetNames acc1
    if acc2.err = none then { acc2 with logs := acc2.logs ++ [LogEntry.syncCompleted] }
    else acc2
  else acc1

/-- `syncSheets()`: alert and stop if the control sheet is missing, otherwise
run the create/delete reconciliation body. -/
def syncSheets (now : String) (arch : String → Bool) (ss : Spreadsheet) : SyncResult :=
  match getSheetByName ss CONFIG.controlSheet with
  | none => { emptyResult ss with alerts := [Alert.controlSheetNotFound] }
  | some controlSheet0 => syncSheetsBody now arch ss controlSheet0

/-! ## `onEdit` -/

/-- An edit event: the edited (active) sheet's name and the edited cell's
1-based row and column. -/
structure EditEvent where
  sheetName : String
  row : Nat
  col : Nat
deriving Repr, DecidableEq

/-- `targetSheet.appendRow(row)`: write `vals` after the last row with
content of the sheet named `n`. -/
def appendRowToSheet (ss : Spreadsheet) (n : String) (vals : List String) : Spreadsheet :=
  updateSheet ss n (fun g => setRow g (getLastRow g + 1) 1 vals)

/-- `sheet.deleteRow(r)`: remove row `r` outright (subsequent rows shift up). -/
def deleteRowInSheet (ss : Spreadsheet) (n : String) (r : Nat) : Spreadsheet :=
  updateSheet ss n (fun g => g.eraseIdx (r - 1))

/-- Functionality 2 of `onEdit`: if the edit touched the control range
(`A2:A10` of the control sheet), run `syncSheets` (the 500 ms
`Utilities.sleep` debounce has no observable effect in this model). -/
def runSyncBranch (now : String) (arch : String → Bool) (e : EditEvent)
    (acc : SyncResult) : SyncResult :=
  if e.sheetName = CONFIG.controlSheet ∧ e.col = CONFIG.nameColumn ∧
      CONFIG.nameStartRow ≤ e.row ∧ e.row ≤ CONFIG.nameEndRow then
    let r := syncSheets now arch acc.ss
    { ss := r.ss
      alerts := acc.alerts ++ r.alerts
      logs := acc.logs ++ r.logs
      created := acc.created ++ r.created
      deleted := acc.deleted ++ r.deleted
      err := r.err }
  else acc

/-- `onEdit(e)`: functionality 1 (column-E status migration: read the edited
cell; on a non-empty value, alert and stop if no sheet of that name exists,
else append the whole row to the target sheet and delete it from the source),
then functionality 2 (control-range edits trigger `syncSheets`).
`appendOk = false` makes the `appendRow` host write fail, aborting the run
before `deleteRow`. -/
def onEdit (now : String) (arch : String → Bool) (appendOk : Bool) (e : EditEvent)
    (ss : Spreadsheet) : SyncResult :=
  match getSheetByName ss e.sheetName with
  | none => emptyResult ss
  | some sheet =>
    if e.col = 5 then
      let statusVal := valueAt sheet.grid e.row 5
      if statusVal ≠ "" then
        match getSheetByName ss statusVal with
        | none => { emptyResult ss with alerts := [Alert.targetSheetNotFound statusVal] }
        | some _ =>
          if appendOk then
            let rowData := getRowValues sheet.grid e.row 1 (getLastColumn sheet.grid)
            let ss := appendRowToSheet ss statusVal rowData
            let ss := deleteRowInSheet ss e.sheetName e.row
            runSyncBranch now arch e
              { emptyResult ss with logs := [LogEntry.movedRow e.row statusVal] }
          else { emptyResult ss with err := some (SyncErr.appendFailed e.sheetName) }
      else runSyncBranch now arch e (emptyResult ss)
    else runSyncBranch now arch e (emptyResult ss)

/-- The grid of the archive (`DataSaver`) sheet, `[]` if absent. -/
def saverGridOf (ss : Spreadsheet) : Grid :=
  match getSheetByName ss CONFIG.dataSaverSheet with
  | some sh => sh.grid
  | none => []

/-- The archive grid contains a record whose `Sheet Name` column (column 2)
holds `s`, within the content region. -/
def archiveHasRecordFor (g : Grid) (s : String) : Bool :=
  (List.range (getLastRow g)).any (fun i => valueAt g (i + 1) 2 = s)

/-! ## Basic lemmas: positional updates -/

theorem updAt_getD_self (d : α) (f : α → α) :
    ∀ (i : Nat) (xs : List α), (updAt d i f xs).getD i d = f (xs.getD i d) := by
  intro i
  induction i with
  | zero => intro xs; cases xs <;> rfl
  | succ n ih =>
    intro xs
    cases xs with
    | nil =>
      show (updAt d n f []).getD n d = f (([] : List α).getD (n + 1) d)
      rw [ih []]
      rfl
    | cons x xs =>
      show (updAt d n f xs).getD n d = f (xs.getD n d)
      exact ih xs

theorem updAt_getD_ne (d : α) (f : α → α) :
    ∀ (i j : Nat) (xs : List α), i ≠ j → (updAt d i f xs).getD j d = xs.getD j d := by
  intro i
  induction i with
  | zero =>
    intro j xs h
    rcases j with _ | j
    · exact absurd rfl h
    · cases xs <;> rfl
  | succ n ih =>
    intro j xs h
    rcases j with _ | j
    · cases xs <;> rfl
    · cases xs with
      | nil =>
        show (updAt d n f []).getD j d = ([] : List α).getD (j + 1) d
        rw [ih _ _ (by omega)]
        rfl
      | cons x xs =>
        show (updAt d n f xs).getD j d = xs.getD j d
        exact ih _ _ (by omega)

/-- `getCell` only depends on the truncated indices. -/
theorem getCell_congr (g : Grid) (h1 : r - 1 = r' - 1) (h2 : c - 1 = c' - 1) :
    getCell g r c = getCell g r' c' := by
  unfold getCell; rw [h1, h2]

/-- Master pointwise description of `setCell`. -/
theorem getCell_setCell (g : Grid) (r c : Nat) (f : Cell → Cell) (r' c' : Nat) :
    getCell (setCell g r c f) r' c' =
      if r' - 1 = r - 1 ∧ c' - 1 = c - 1 then f (getCell g r c) else getCell g r' c' := by
  unfold getCell setCell
  by_cases hr : r' - 1 = r - 1
  · rw [hr, updAt_getD_self]
    by_cases hc : c' - 1 = c - 1
    · rw [if_pos ⟨rfl, hc⟩, hc, updAt_getD_self]
    · rw [if_neg (by tauto), updAt_getD_ne _ _ _ _ _ (fun h => hc h.symm)]
  · rw [if_neg (by tauto), updAt_getD_ne _ _ _ _ _ (fun h => hr h.symm)]

theorem valueAt_setValue (g : Grid) (r c : Nat) (v : String) (r' c' : Nat) :
    valueAt (setValue g r c v) r' c' =
      if r' - 1 = r - 1 ∧ c' - 1 = c - 1 then v else valueAt g r' c' := by
  unfold valueAt setValue
  rw [getCell_setCell]
  by_cases h : r' - 1 = r - 1 ∧ c' - 1 = c - 1 <;> simp [h]

/-- A style-only cell update leaves every value unchanged. -/
theorem valueAt_setCell_style (g : Grid) (r c : Nat) (f : Cell → Cell)
    (hf : ∀ cl, (f cl).value = cl.value) (r' c' : Nat) :
    valueAt (setCell g r c f) r' c' = valueAt g r' c' := by
  unfold valueAt
  rw [getCell_setCell]
  by_cases h : r' - 1 = r - 1 ∧ c' - 1 = c - 1
  · rw [if_pos h, hf, ← getCell_congr g h.1 h.2]
  · rw [if_neg h]

/-- A value-only cell update leaves background, font weight and border
unchanged. -/
theorem styles_setValue (g : Grid) (r c : Nat) (v : String) (r' c' : Nat) :
    (getCell (setValue g r c v) r' c').background = (getCell g r' c').background ∧
    (getCell (setValue g r c v) r' c').fontWeight = (getCell g r' c').fontWeight ∧
    (getCell (setValue g r c v) r' c').border = (getCell g r' c').border := by
  unfold setValue
  rw [getCell_setCell]
  by_cases h : r' - 1 = r - 1 ∧ c' - 1 = c - 1
  · rw [if_pos h, ← getCell_congr g h.1 h.2]; exact ⟨rfl, rfl, rfl⟩
  · rw [if_neg h]; exact ⟨rfl, rfl, rfl⟩

/-! ## Content bounds: `getLastRow` / `getLastColumn` -/

theorem rowHasContent_of_getD (row : List Cell) (i : Nat)
    (h : (row.getD i emptyCell).value ≠ "") : rowHasContent row = true := by
  induction row generalizing i with
  | nil => simp [List.getD, emptyCell] at h
  | cons x xs ih =>
    cases i with
    | zero =>
      simp only [List.getD_cons_zero] at h
      simp [rowHasContent, List.any_cons, cellHasContent, h]
    | succ j =>
      simp only [List.getD_cons_succ] at h
      have := ih j h
      simp [rowHasContent, List.any_cons] at this ⊢
      exact Or.inr this

theorem exists_col_of_rowHasContent (row : List Cell) (h : rowHasContent row = true) :
    ∃ i, (row.getD i emptyCell).value ≠ "" := by
  induction row with
  | nil => simp [rowHasContent] at h
  | cons x xs ih =>
    simp only [rowHasContent, List.any_cons, Bool.or_eq_true] at h
    rcases h with h | h
    · exact ⟨0, by simpa [cellHasContent] using h⟩
    · obtain ⟨j, hj⟩ := ih h
      exact ⟨j + 1, by simpa using hj⟩

/-- Unfolding lemma for `getLastRow` in an `omega`-friendly form. -/
theorem getLastRow_cons (row : List Cell) (rest : Grid) :
    getLastRow (row :: rest) =
      if getLastRow rest = 0 then (if rowHasContent row then 1 else 0)
      else getLastRow rest + 1 := by
  show (match getLastRow rest with
        | 0 => if rowHasContent row then 1 else 0
        | n + 1 => n + 2) = _
  rcases h : getLastRow rest with _ | n <;> simp

/-- Unfolding lemma for `rowLastCol` in an `omega`-friendly form. -/
theorem rowLastCol_cons (cl : Cell) (rest : List Cell) :
    rowLastCol (cl :: rest) =
      if rowLastCol rest = 0 then (if cellHasContent cl then 1 else 0)
      else rowLastCol rest + 1 := by
  show (match rowLastCol rest with
        | 0 => if cellHasContent cl then 1 else 0
        | n + 1 => n + 2) = _
  rcases h : rowLastCol rest with _ | n <;> simp

theorem getLastRow_ge_of_rowContent :
    ∀ (g : Grid) (i : Nat), rowHasContent (g.getD i []) = true → i + 1 ≤ getLastRow g := by
  intro g
  induction g with
  | nil => intro i h; simp [rowHasContent] at h
  | cons row rest ih =>
    intro i h
    cases i with
    | zero =>
      simp only [List.getD_cons_zero] at h
      rw [getLastRow_cons, h]
      split <;> simp
    | succ j =>
      simp only [List.getD_cons_succ] at h
      have := ih j h
      rw [getLastRow_cons]
      split <;> omega

/-- If a cell holds a non-empty value, its row is within `getLastRow`. -/
theorem le_getLastRow_of_value (g : Grid) (r c : Nat) (h : valueAt g r c ≠ "") :
    r ≤ getLastRow g := by
  rcases r with _ | r'
  · omega
  · have hrow : rowHasContent (g.getD r' []) = true := by
      apply rowHasContent_of_getD _ (c - 1)
      simpa [valueAt, getCell] using h
    simpa using getLastRow_ge_of_rowContent g r' hrow

/-- The last content row really has content. -/
theorem rowContent_at_getLastRow :
    ∀ (g : Grid) (n : Nat), getLastRow g = n + 1 → rowHasContent (g.getD n []) = true := by
  intro g
  induction g with
  | nil => intro n h; simp [getLastRow] at h
  | cons row rest ih =>
    intro n h
    rw [getLastRow_cons] at h
    by_cases hrest : getLastRow rest = 0
    · rw [if_pos hrest] at h
      by_cases hc : rowHasContent row = true
      · rw [if_pos hc] at h
        have : n = 0 := by omega
        subst this; simpa using hc
      · simp [hc] at h
    · rw [if_neg hrest] at h
      rcases hm : getLastRow rest with _ | m
      · exact absurd hm hrest
      · rw [hm] at h
        have : n = m + 1 := by omega
        subst this
        simpa using ih m hm

theorem exists_value_at_getLastRow (g : Grid) (n : Nat) (h : getLastRow g = n + 1) :
    ∃ c, valueAt g (n + 1) c ≠ "" := by
  obtain ⟨j, hj⟩ := exists_col_of_rowHasContent _ (rowContent_at_getLastRow g n h)
  exact ⟨j + 1, by simpa [valueAt, getCell] using hj⟩

/-- Upper bound for `getLastRow` from a bound on the non-empty values. -/
theorem getLastRow_le (g : Grid) (n : Nat)
    (h : ∀ r c, valueAt g r c ≠ "" → r ≤ n) : getLastRow g ≤ n := by
  rcases hg : getLastRow g with _ | m
  · omega
  · obtain ⟨c, hc⟩ := exists_value_at_getLastRow g m hg
    exact h (m + 1) c hc

/-- `getLastRow` only depends on the values seen through `valueAt`. -/
theorem getLastRow_congr (g₁ g₂ : Grid)
    (h : ∀ r c, valueAt g₁ r c = valueAt g₂ r c) : getLastRow g₁ = getLastRow g₂ := by
  apply Nat.le_antisymm
  · exact getLastRow_le _ _ (fun r c hv => le_getLastRow_of_value g₂ r c (h r c ▸ hv))
  · exact getLastRow_le _ _ (fun r c hv => le_getLastRow_of_value g₁ r c ((h r c).symm ▸ hv))

theorem rowLastCol_ge (row : List Cell) :
    ∀ (j : Nat), (row.getD j emptyCell).value ≠ "" → j + 1 ≤ rowLastCol row := by
  induction row with
  | nil => intro j h; simp [List.getD, emptyCell] at h
  | cons x xs ih =>
    intro j h
    cases j with
    | zero =>
      simp only [List.getD_cons_zero] at h
      rw [rowLastCol_cons]
      have hc : cellHasContent x = true := by simp [cellHasContent, h]
      rw [hc]
      split <;> simp
    | succ k =>
      simp only [List.getD_cons_succ] at h
      have := ih k h
      rw [rowLastCol_cons]
      split <;> omega

theorem rowLastCol_le_getLastColumn :
    ∀ (g : Grid) (i : Nat), rowLastCol (g.getD i []) ≤ getLastColumn g := by
  intro g
  induction g with
  | nil => intro i; simp [rowLastCol, getLastColumn]
  | cons row rest ih =>
    intro i
    cases i with
    | zero => simp only [List.getD_cons_zero, getLastColumn, List.foldr]; omega
    | succ j =>
      have := ih j
      simp only [List.getD_cons_succ, getLastColumn, List.foldr] at this ⊢
      omega

/-- If a cell holds a non-empty value, its column is within `getLastColumn`. -/
theorem le_getLastColumn_of_value (g : Grid) (r c : Nat) (h : valueAt g r c ≠ "") :
    c ≤ getLastColumn g := by
  rcases c with _ | c'
  · omega
  · have h1 : c' + 1 ≤ rowLastCol (g.getD (r - 1) []) :=
      rowLastCol_ge _ c' (by simpa [valueAt, getCell] using h)
    have h2 := rowLastCol_le_getLastColumn g (r - 1)
    omega

/-! ## Pointwise description of the range writes -/

theorem valueAt_setRow (r r' c' : Nat) (hr : 1 ≤ r) (hr' : 1 ≤ r') (hc' : 1 ≤ c') :
    ∀ (vs : List String) (g : Grid) (c : Nat), 1 ≤ c →
    valueAt (setRow g r c vs) r' c' =
      if r' = r ∧ c ≤ c' ∧ c' < c + vs.length then vs.getD (c' - c) "" else valueAt g r' c' := by
  intro vs
  induction vs with
  | nil =>
    intro g c hc
    show valueAt g r' c' = _
    rw [if_neg (by rintro ⟨_, h2, h3⟩; simp at h3; omega)]
  | cons v vs ih =>
    intro g c hc
    show valueAt (setRow (setValue g r c v) r (c + 1) vs) r' c' = _
    rw [ih (setValue g r c v) (c + 1) (by omega), valueAt_setValue]
    by_cases h1 : r' = r
    · by_cases h2 : c' = c
      · rw [if_neg (by rintro ⟨_, hh, _⟩; omega),
            if_pos ⟨by omega, by omega⟩,
            if_pos ⟨h1, by omega, by simp; omega⟩]
        subst h2; simp
      · by_cases h3 : c + 1 ≤ c' ∧ c' < c + 1 + vs.length
        · rw [if_pos ⟨h1, h3.1, h3.2⟩, if_pos ⟨h1, by omega, by simp; omega⟩]
          have hix : c' - c = (c' - (c + 1)) + 1 := by omega
          rw [hix]
          simp
        · rw [if_neg (by rintro ⟨_, hh1, hh2⟩; exact h3 ⟨hh1, hh2⟩),
              if_neg (by rintro ⟨_, hh⟩; exact h2 (by omega)),
              if_neg (by rintro ⟨_, hh1, hh2⟩; simp at hh2; omega)]
    · rw [if_neg (by rintro ⟨hh, _⟩; exact h1 hh),
          if_neg (by rintro ⟨hh, _⟩; exact h1 (by omega)),
          if_neg (by rintro ⟨hh, _⟩; exact h1 hh)]

/-- A `setRow` at another row leaves a cell entirely unchanged. -/
theorem getCell_setRow_ne_row (r r' c' : Nat) (h : r' - 1 ≠ r - 1) :
    ∀ (vs : List String) (g : Grid) (c : Nat),
    getCell (setRow g r c vs) r' c' = getCell g r' c' := by
  intro vs
  induction vs with
  | nil => intro g c; rfl
  | cons v vs ih =>
    intro g c
    show getCell (setRow (setValue g r c v) r (c + 1) vs) r' c' = _
    rw [ih, setValue, getCell_setCell, if_neg (by rintro ⟨hh, _⟩; exact h hh)]

/-- A `setBlock` strictly below a cell leaves it entirely unchanged. -/
theorem getCell_setBlock_lt_row (r' c' : Nat) :
    ∀ (m : List (List String)) (g : Grid) (r c : Nat), r' - 1 < r - 1 →
    getCell (setBlock g r c m) r' c' = getCell g r' c' := by
  intro m
  induction m with
  | nil => intro g r c _; rfl
  | cons row rows ih =>
    intro g r c h
    show getCell (setBlock (setRow g r c row) (r + 1) c rows) r' c' = _
    rw [ih _ (r + 1) c (by omega), getCell_setRow_ne_row _ _ _ (by omega)]

/-- A `setBGRow` leaves every value unchanged. -/
theorem valueAt_setBGRow (r r' c' : Nat) :
    ∀ (bs : List String) (g : Grid) (c : Nat),
    valueAt (setBGRow g r c bs) r' c' = valueAt g r' c' := by
  intro bs
  induction bs with
  | nil => intro g c; rfl
  | cons b bs ih =>
    intro g c
    show valueAt (setBGRow (setBG g r c b) r (c + 1) bs) r' c' = _
    rw [ih]
    exact valueAt_setCell_style g r c (fun cl => { cl with background := b })
      (fun cl => rfl) r' c'

/-- A `setBGBlock` leaves every value unchanged. -/
theorem valueAt_setBGBlock (r' c' : Nat) :
    ∀ (m : List (List String)) (g : Grid) (r c : Nat),
    valueAt (setBGBlock g r c m) r' c' = valueAt g r' c' := by
  intro m
  induction m with
  | nil => intro g r c; rfl
  | cons row rows ih =>
    intro g r c
    show valueAt (setBGBlock (setBGRow g r c row) (r + 1) c rows) r' c' = _
    rw [ih, valueAt_setBGRow]

/-- A `setBGRow` at another row leaves a cell entirely unchanged. -/
theorem getCell_setBGRow_ne_row (r r' c' : Nat) (h : r' - 1 ≠ r - 1) :
    ∀ (bs : List String) (g : Grid) (c : Nat),
    getCell (setBGRow g r c bs) r' c' = getCell g r' c' := by
  intro bs
  induction bs with
  | nil => intro g c; rfl
  | cons b bs ih =>
    intro g c
    show getCell (setBGRow (setBG g r c b) r (c + 1) bs) r' c' = _
    rw [ih, setBG, getCell_setCell, if_neg (by rintro ⟨hh, _⟩; exact h hh)]

/-- A `setBGBlock` strictly below a cell leaves it entirely unchanged. -/
theorem getCell_setBGBlock_lt_row (r' c' : Nat) :
    ∀ (m : List (List String)) (g : Grid) (r c : Nat), r' - 1 < r - 1 →
    getCell (setBGBlock g r c m) r' c' = getCell g r' c' := by
  intro m
  induction m with
  | nil => intro g r c _; rfl
  | cons row rows ih =>
    intro g r c h
    show getCell (setBGBlock (setBGRow g r c row) (r + 1) c rows) r' c' = _
    rw [ih _ (r + 1) c (by omega), getCell_setBGRow_ne_row _ _ _ (by omega)]

/-- A `setRowStyle` leaves every value unchanged, provided the cell update
preserves values. -/
theorem valueAt_setRowStyle (r r' c' : Nat) (f : Cell → Cell)
    (hf : ∀ cl, (f cl).value = cl.value) :
    ∀ (n : Nat) (g : Grid) (c : Nat),
    valueAt (setRowStyle g r c n f) r' c' = valueAt g r' c' := by
  intro n
  induction n with
  | zero => intro g c; rfl
  | succ n ih =>
    intro g c
    show valueAt (setRowStyle (setCell g r c f) r (c + 1) n f) r' c' = _
    rw [ih, valueAt_setCell_style _ _ _ _ hf]

/-- A `setRowStyle` at another row leaves a cell entirely unchanged. -/
theorem getCell_setRowStyle_ne_row (r r' c' : Nat) (f : Cell → Cell) (h : r' - 1 ≠ r - 1) :
    ∀ (n : Nat) (g : Grid) (c : Nat),
    getCell (setRowStyle g r c n f) r' c' = getCell g r' c' := by
  intro n
  induction n with
  | zero => intro g c; rfl
  | succ n ih =>
    intro g c
    show getCell (setRowStyle (setCell g r c f) r (c + 1) n f) r' c' = _
    rw [ih, getCell_setCell, if_neg (by rintro ⟨hh, _⟩; exact h hh)]

/-- Reading back a row just written. -/
theorem getRowValues_setRow (r : Nat) (hr : 1 ≤ r) :
    ∀ (vs : List String) (g : Grid) (c : Nat), 1 ≤ c →
    getRowValues (setRow g r c vs) r c vs.length = vs := by
  intro vs
  induction vs with
  | nil => intro g c _; rfl
  | cons v vs ih =>
    intro g c hc
    show valueAt (setRow g r c (v :: vs)) r c :: getRowValues (setRow g r c (v :: vs)) r (c + 1) vs.length
          = v :: vs
    have h1 : valueAt (setRow g r c (v :: vs)) r c = v := by
      rw [valueAt_setRow r r c hr hr hc _ g c hc, if_pos ⟨rfl, le_refl c, by simp⟩]
      simp
    have h2 : getRowValues (setRow g r c (v :: vs)) r (c + 1) vs.length
        = getRowValues (setRow (setValue g r c v) r (c + 1) vs) r (c + 1) vs.length := rfl
    rw [h1, h2, ih (setValue g r c v) (c + 1) (by omega)]

/-- Entry `j` of `getRowValues`. -/
theorem getRowValues_getD (r : Nat) :
    ∀ (n j : Nat) (g : Grid) (c : Nat), j < n →
    (getRowValues g r c n).getD j "" = valueAt g r (c + j) := by
  intro n
  induction n with
  | zero => intro j g c h; omega
  | succ n ih =>
    intro j g c h
    cases j with
    | zero => simp [getRowValues]
    | succ k =>
      show (getRowValues g r (c + 1) n).getD k "" = _
      rw [ih k g (c + 1) (by omega)]
      congr 1
      omega

/-- The length of `getRowValues`. -/
theorem getRowValues_length (r : Nat) :
    ∀ (n : Nat) (g : Grid) (c : Nat), (getRowValues g r c n).length = n := by
  intro n
  induction n with
  | zero => intro g c; rfl
  | succ n ih => intro g c; simpa [getRowValues] using ih g (c + 1)

/-- `appendRow` with a non-empty cell somewhere advances `getLastRow` by
exactly one. -/
theorem getLastRow_setRow_append (g : Grid) (vs : List String)
    (h : ∃ j, j < vs.length ∧ vs.getD j "" ≠ "") :
    getLastRow (setRow g (getLastRow g + 1) 1 vs) = getLastRow g + 1 := by
  obtain ⟨j, hj, hne⟩ := h
  apply Nat.le_antisymm
  · apply getLastRow_le
    intro r c hv
    rcases Nat.eq_zero_or_pos r with hr0 | hrpos
    · omega
    rcases Nat.eq_zero_or_pos c with hc0 | hcpos
    · have : valueAt (setRow g (getLastRow g + 1) 1 vs) r 1 ≠ "" := by
        rwa [valueAt, getCell_congr _ (rfl) (show c - 1 = 1 - 1 by omega), ← valueAt] at hv
      rw [valueAt_setRow _ _ _ (by omega) hrpos (by omega) _ _ _ (by omega)] at this
      by_cases hcase : r = getLastRow g + 1 ∧ 1 ≤ 1 ∧ 1 < 1 + vs.length
      · omega
      · rw [if_neg hcase] at this
        have := le_getLastRow_of_value g r 1 this
        omega
    · rw [valueAt_setRow _ _ _ (by omega) hrpos hcpos _ _ _ (by omega)] at hv
      by_cases hcase : r = getLastRow g + 1 ∧ 1 ≤ c ∧ c < 1 + vs.length
      · omega
      · rw [if_neg hcase] at hv
        have := le_getLastRow_of_value g r c hv
        omega
  · apply le_getLastRow_of_value _ _ (1 + j)
    rw [valueAt_setRow _ _ _ (by omega) (by omega) (by omega) _ _ _ (by omega),
        if_pos ⟨rfl, by omega, by omega⟩]
    have : 1 + j - 1 = j := by omega
    rwa [this]

/-- A grid with no content column has no content row either. -/
theorem getLastRow_eq_zero_of_lastCol (g : Grid) (h : getLastColumn g = 0) :
    getLastRow g = 0 := by
  rcases hg : getLastRow g with _ | m
  · rfl
  · obtain ⟨c, hc⟩ := exists_value_at_getLastRow g m hg
    have := le_getLastColumn_of_value g (m + 1) c hc
    have : c = 0 := by omega
    subst this
    have : valueAt g (m + 1) 1 ≠ "" := by
      have := @getCell_congr (m + 1) (m + 1) 0 1 g rfl rfl
      simpa [valueAt, this] using hc
    have := le_getLastColumn_of_value g (m + 1) 1 this
    omega

/-! ## Sheet-level lemmas -/

theorem getSheetByName_name (ss : Spreadsheet) (n : String) (sh : Sheet)
    (h : getSheetByName ss n = some sh) : sh.name = n := by
  induction ss with
  | nil => simp [getSheetByName] at h
  | cons x xs ih =>
    by_cases hx : x.name = n
    · rw [getSheetByName, if_pos hx] at h
      cases h; exact hx
    · rw [getSheetByName, if_neg hx] at h
      exact ih h

theorem mem_sheetNames_of_getSheetByName (ss : Spreadsheet) (n : String) (sh : Sheet)
    (h : getSheetByName ss n = some sh) : n ∈ sheetNames ss := by
  induction ss with
  | nil => simp [getSheetByName] at h
  | cons x xs ih =>
    show n ∈ x.name :: sheetNames xs
    by_cases hx : x.name = n
    · rw [hx]; exact List.mem_cons_self _ _
    · rw [getSheetByName, if_neg hx] at h
      exact List.mem_cons_of_mem _ (ih h)

theorem getSheetByName_isSome_of_mem (ss : Spreadsheet) (n : String)
    (h : n ∈ sheetNames ss) : ∃ sh, getSheetByName ss n = some sh := by
  induction ss with
  | nil => simp [sheetNames] at h
  | cons x xs ih =>
    by_cases hx : x.name = n
    · exact ⟨x, by rw [getSheetByName, if_pos hx]⟩
    · have h' : n ∈ sheetNames xs := by
        rcases List.mem_cons.mp (show n ∈ x.name :: sheetNames xs from h) with h1 | h1
        · exact absurd h1.symm hx
        · exact h1
      obtain ⟨sh, hsh⟩ := ih h'
      exact ⟨sh, by rw [getSheetByName, if_neg hx]; exact hsh⟩

theorem getSheetByName_eq_none_of_not_mem (ss : Spreadsheet) (n : String)
    (h : n ∉ sheetNames ss) : getSheetByName ss n = none := by
  induction ss with
  | nil => rfl
  | cons x xs ih =>
    have hx : ¬ x.name = n := fun hh =>
      h (show n ∈ x.name :: sheetNames xs from hh ▸ List.mem_cons_self _ _)
    have h2 : n ∉ sheetNames xs := fun hh =>
      h (show n ∈ x.name :: sheetNames xs from List.mem_cons_of_mem _ hh)
    rw [getSheetByName, if_neg hx]
    exact ih h2

theorem sheetNames_updateSheet (ss : Spreadsheet) (m : String) (f : Grid → Grid) :
    sheetNames (updateSheet ss m f) = sheetNames ss := by
  induction ss with
  | nil => rfl
  | cons x xs ih =>
    by_cases hx : x.name = m
    · simp [updateSheet, if_pos hx, sheetNames]
    · simp [updateSheet, if_neg hx, sheetNames]
      simpa [sheetNames] using ih

theorem getSheetByName_updateSheet_self (ss : Spreadsheet) (m : String)
    (f : Grid → Grid) (sh : Sheet) (h : getSheetByName ss m = some sh) :
    getSheetByName (updateSheet ss m f) m = some { sh with grid := f sh.grid } := by
  induction ss with
  | nil => simp [getSheetByName] at h
  | cons x xs ih =>
    by_cases hx : x.name = m
    · rw [getSheetByName, if_pos hx] at h
      cases h
      rw [updateSheet, if_pos hx, getSheetByName, if_pos hx]
    · rw [getSheetByName, if_neg hx] at h
      rw [updateSheet, if_neg hx, getSheetByName, if_neg hx]
      exact ih h

theorem getSheetByName_updateSheet_ne (ss : Spreadsheet) (m n : String)
    (f : Grid → Grid) (h : n ≠ m) :
    getSheetByName (updateSheet ss m f) n = getSheetByName ss n := by
  induction ss with
  | nil => rfl
  | cons x xs ih =>
    have hxn : x.name = m → ¬ x.name = n := fun hx hh => h (hh.symm.trans hx)
    by_cases hx : x.name = m
    · rw [updateSheet, if_pos hx]
      show (if ({ x with grid := f x.grid } : Sheet).name = n then _ else getSheetByName xs n)
            = getSheetByName (x :: xs) n
      rw [if_neg (show ¬ x.name = n from hxn hx), getSheetByName, if_neg (hxn hx)]
    · rw [updateSheet, if_neg hx]
      by_cases hn : x.name = n
      · rw [getSheetByName, if_pos hn, getSheetByName, if_pos hn]
      · rw [getSheetByName, if_neg hn, getSheetByName, if_neg hn]
        exact ih

theorem sheetNames_deleteSheetByName (ss : Spreadsheet) (s : String) :
    sheetNames (deleteSheetByName ss s) = (sheetNames ss).erase s := by
  induction ss with
  | nil => rfl
  | cons x xs ih =>
    by_cases hx : x.name = s
    · rw [deleteSheetByName, if_pos hx]
      show sheetNames xs = (x.name :: sheetNames xs).erase s
      rw [hx, List.erase_cons_head]
    · rw [deleteSheetByName, if_neg hx]
      show x.name :: sheetNames (deleteSheetByName xs s) = (x.name :: sheetNames xs).erase s
      rw [ih, List.erase_cons_tail]
      simp [hx]

theorem getSheetByName_deleteSheetByName_ne (ss : Spreadsheet) (s n : String)
    (h : n ≠ s) :
    getSheetByName (deleteSheetByName ss s) n = getSheetByName ss n := by
  induction ss with
  | nil => rfl
  | cons x xs ih =>
    by_cases hx : x.name = s
    · rw [deleteSheetByName, if_pos hx, getSheetByName,
          if_neg (fun hh => h (hh.symm.trans hx))]
    · rw [deleteSheetByName, if_neg hx]
      by_cases hn : x.name = n
      · rw [getSheetByName, if_pos hn, getSheetByName, if_pos hn]
      · rw [getSheetByName, if_neg hn, getSheetByName, if_neg hn]
        exact ih

theorem sheetNames_insertSheetAtEnd (ss : Spreadsheet) (n : String) :
    sheetNames (insertSheetAtEnd ss n) = sheetNames ss ++ [n] := by
  simp [insertSheetAtEnd, sheetNames]

theorem getSheetByName_append_left (ss ts : Spreadsheet) (n : String) (sh : Sheet)
    (h : getSheetByName ss n = some sh) :
    getSheetByName (ss ++ ts) n = some sh := by
  induction ss with
  | nil => simp [getSheetByName] at h
  | cons x xs ih =>
    by_cases hx : x.name = n
    · rw [getSheetByName, if_pos hx] at h
      rw [List.cons_append, getSheetByName, if_pos hx]
      exact h
    · rw [getSheetByName, if_neg hx] at h
      rw [List.cons_append, getSheetByName, if_neg hx]
      exact ih h

theorem getSheetByName_append_right (ss ts : Spreadsheet) (n : String)
    (h : n ∉ sheetNames ss) :
    getSheetByName (ss ++ ts) n = getSheetByName ts n := by
  induction ss with
  | nil => rfl
  | cons x xs ih =>
    have hx : ¬ x.name = n := fun hh =>
      h (show n ∈ x.name :: sheetNames xs from hh ▸ List.mem_cons_self _ _)
    have h2 : n ∉ sheetNames xs := fun hh =>
      h (show n ∈ x.name :: sheetNames xs from List.mem_cons_of_mem _ hh)
    rw [List.cons_append, getSheetByName, if_neg hx]
    exact ih h2

/-! ## `backupSheetData` lemmas -/

theorem getCell_setValue_ne (g : Grid) (r c : Nat) (v : String) (r' c' : Nat)
    (h : ¬(r' - 1 = r - 1 ∧ c' - 1 = c - 1)) :
    getCell (setValue g r c v) r' c' = getCell g r' c' := by
  unfold setValue
  rw [getCell_setCell, if_neg h]

theorem valueAt_setBlock_lt_row (r' c' : Nat) (m : List (List String)) (g : Grid)
    (r c : Nat) (h : r' - 1 < r - 1) :
    valueAt (setBlock g r c m) r' c' = valueAt g r' c' := by
  unfold valueAt
  rw [getCell_setBlock_lt_row _ _ _ _ _ _ h]

/-- The three header `setValue`s and the style pass of `backupSheetData`,
written at `nextRow = getLastRow saver + 1`. -/
def backupHeaderWrites (now : String) (source : Sheet) (saver : Grid) : Grid :=
  setRowStyle
    (setValue (setValue (setValue saver (getLastRow saver + 1) 1 now)
        (getLastRow saver + 1) 2 source.name)
      (getLastRow saver + 1) 3 "--- Data Below ---")
    (getLastRow saver + 1) 1 3 backupHeaderStyle

/-- `backupSheetData` unfolded into its sequence of writes. -/
theorem backupSheetData_eq (now : String) (source : Sheet) (saver : Grid) :
    backupSheetData now source saver =
      setValue
        (if getLastRow source.grid > 0 ∧ getLastColumn source.grid > 0 then
          setBGBlock
            (setBlock (backupHeaderWrites now source saver) (getLastRow saver + 1 + 1) 1
              (getBlockValues source.grid 1 1 (getLastRow source.grid)
                (getLastColumn source.grid)))
            (getLastRow saver + 1 + 1) 1
            (getBlockBGs source.grid 1 1 (getLastRow source.grid)
              (getLastColumn source.grid))
        else
          setValue (backupHeaderWrites now source saver) (getLastRow saver + 1 + 1) 1
            "(No data to backup)")
        (getLastRow saver + 1 + getLastRow source.grid + 2) 1 "" := rfl

theorem getCell_backupHeaderWrites_ne (now : String) (source : Sheet) (saver : Grid)
    (r c : Nat) (h : r - 1 ≠ getLastRow saver) :
    getCell (backupHeaderWrites now source saver) r c = getCell saver r c := by
  unfold backupHeaderWrites
  rw [getCell_setRowStyle_ne_row _ _ _ _ (by omega),
      getCell_setValue_ne _ _ _ _ _ _ (by omega),
      getCell_setValue_ne _ _ _ _ _ _ (by omega),
      getCell_setValue_ne _ _ _ _ _ _ (by omega)]

theorem valueAt_backupHeaderWrites_2 (now : String) (source : Sheet) (saver : Grid) :
    valueAt (backupHeaderWrites now source saver) (getLastRow saver + 1) 2 = source.name := by
  unfold backupHeaderWrites
  rw [valueAt_setRowStyle _ _ _ backupHeaderStyle (fun cl => rfl),
      valueAt_setValue, if_neg (by omega),
      valueAt_setValue, if_pos ⟨rfl, rfl⟩]

theorem valueAt_backupHeaderWrites_3 (now : String) (source : Sheet) (saver : Grid) :
    valueAt (backupHeaderWrites now source saver) (getLastRow saver + 1) 3
      = "--- Data Below ---" := by
  unfold backupHeaderWrites
  rw [valueAt_setRowStyle _ _ _ backupHeaderStyle (fun cl => rfl),
      valueAt_setValue, if_pos ⟨rfl, rfl⟩]

/-- Cells within the archive's pre-existing content region are untouched by
a backup append (values and styles alike). -/
theorem getCell_backupSheetData_below (now : String) (source : Sheet) (saver : Grid)
    (r c : Nat) (hr1 : 1 ≤ r) (hrN : r ≤ getLastRow saver) :
    getCell (backupSheetData now source saver) r c = getCell saver r c := by
  rw [backupSheetData_eq, getCell_setValue_ne _ _ _ _ _ _ (by omega)]
  by_cases hcond : getLastRow source.grid > 0 ∧ getLastColumn source.grid > 0
  · rw [if_pos hcond,
        getCell_setBGBlock_lt_row _ _ _ _ _ _ (by omega),
        getCell_setBlock_lt_row _ _ _ _ _ _ (by omega),
        getCell_backupHeaderWrites_ne _ _ _ _ _ (by omega)]
  · rw [if_neg hcond,
        getCell_setValue_ne _ _ _ _ _ _ (by omega),
        getCell_backupHeaderWrites_ne _ _ _ _ _ (by omega)]

theorem valueAt_backupSheetData_below (now : String) (source : Sheet) (saver : Grid)
    (r c : Nat) (hr1 : 1 ≤ r) (hrN : r ≤ getLastRow saver) :
    valueAt (backupSheetData now source saver) r c = valueAt saver r c := by
  unfold valueAt
  rw [getCell_backupSheetData_below _ _ _ _ _ hr1 hrN]

/-- The header name cell written by a backup append. -/
theorem valueAt_backupSheetData_name (now : String) (source : Sheet) (saver : Grid) :
    valueAt (backupSheetData now source saver) (getLastRow saver + 1) 2 = source.name := by
  rw [backupSheetData_eq, valueAt_setValue, if_neg (by omega)]
  by_cases hcond : getLastRow source.grid > 0 ∧ getLastColumn source.grid > 0
  · rw [if_pos hcond, valueAt_setBGBlock,
        valueAt_setBlock_lt_row _ _ _ _ _ _ (by omega),
        valueAt_backupHeaderWrites_2]
  · rw [if_neg hcond, valueAt_setValue, if_neg (by omega),
        valueAt_backupHeaderWrites_2]

/-- A backup append advances the archive's content region past its header
row. -/
theorem getLastRow_backupSheetData_ge (now : String) (source : Sheet) (saver : Grid) :
    getLastRow saver + 1 ≤ getLastRow (backupSheetData now source saver) := by
  apply le_getLastRow_of_value _ _ 3
  rw [backupSheetData_eq, valueAt_setValue, if_neg (by omega)]
  by_cases hcond : getLastRow source.grid > 0 ∧ getLastColumn source.grid > 0
  · rw [if_pos hcond, valueAt_setBGBlock,
        valueAt_setBlock_lt_row _ _ _ _ _ _ (by omega),
        valueAt_backupHeaderWrites_3]
    decide
  · rw [if_neg hcond, valueAt_setValue, if_neg (by omega),
        valueAt_backupHeaderWrites_3]
    decide

/-- Records already present in the archive survive a further backup append. -/
theorem archiveHasRecordFor_backup_mono (now : String) (source : Sheet) (saver : Grid)
    (s : String) (h : archiveHasRecordFor saver s = true) :
    archiveHasRecordFor (backupSheetData now source saver) s = true := by
  simp only [archiveHasRecordFor, List.any_eq_true, List.mem_range,
    decide_eq_true_eq] at h ⊢
  obtain ⟨i, hi, hv⟩ := h
  have hge := getLastRow_backupSheetData_ge now source saver
  refine ⟨i, by omega, ?_⟩
  rw [valueAt_backupSheetData_below _ _ _ _ _ (by omega) (by omega)]
  exact hv

/-- A backup append records the archived sheet's name in column 2. -/
theorem archiveHasRecordFor_backup_self (now : String) (source : Sheet) (saver : Grid) :
    archiveHasRecordFor (backupSheetData now source saver) source.name = true := by
  simp only [archiveHasRecordFor, List.any_eq_true, List.mem_range, decide_eq_true_eq]
  have hge := getLastRow_backupSheetData_ge now source saver
  exact ⟨getLastRow saver, by omega, valueAt_backupSheetData_name now source saver⟩

/-! ## `createLoop` lemmas -/

/-- Closed form of the create loop when no name collides: it appends one
fresh empty sheet per control name missing from the snapshot, in order. -/
theorem createLoop_spec (snap : List String) :
    ∀ (todo : List String) (acc : SyncResult),
    (todo.filter (fun n => decide (n ∉ snap))).Nodup →
    (∀ n ∈ todo, n ∉ snap → n ∉ sheetNames acc.ss) →
    createLoop snap todo acc =
      { acc with
        ss := acc.ss ++
          (todo.filter (fun n => decide (n ∉ snap))).map (fun n => { name := n, grid := [] }),
        created := acc.created ++ todo.filter (fun n => decide (n ∉ snap)),
        logs := acc.logs ++
          (todo.filter (fun n => decide (n ∉ snap))).map LogEntry.createdSheet } := by
  intro todo
  induction todo with
  | nil => intro acc _ _; simp [createLoop]
  | cons n rest ih =>
    intro acc hnd hfresh
    by_cases hn : n ∈ snap
    · rw [createLoop, if_pos hn]
      rw [ih acc (by simpa [List.filter_cons, hn] using hnd)
        (fun m hm => hfresh m (List.mem_cons_of_mem _ hm))]
      simp [List.filter_cons, hn]
    · have hfiltc :
          (n :: rest).filter (fun m => decide (m ∉ snap)) =
            n :: rest.filter (fun m => decide (m ∉ snap)) := by
        simp [List.filter_cons, hn]
      rw [hfiltc] at hnd
      have hnotmem : n ∉ sheetNames acc.ss := hfresh n (List.mem_cons_self _ _) hn
      rw [createLoop, if_neg hn, if_neg hnotmem]
      rw [ih _ (List.Nodup.of_cons hnd) ?_]
      · simp [List.filter_cons, hn, sheetNames, insertSheetAtEnd]
      · intro m hm hmsnap
        rw [sheetNames_insertSheetAtEnd]
        intro hmem
        rcases List.mem_append.mp hmem with h1 | h1
        · exact hfresh m (List.mem_cons_of_mem _ hm) hmsnap h1
        · have hmn : m = n := by simpa using h1
          have : m ∈ rest.filter (fun m => decide (m ∉ snap)) := by
            simp [List.mem_filter, hm, hmsnap]
          rw [hmn] at this
          exact (List.nodup_cons.mp hnd).1 this

/-- The create loop (successful or aborted) appends some list of
non-snapshot names: its effect on each outcome field, with no side
conditions. -/
theorem createLoop_general (snap : List String) :
    ∀ (todo : List String) (acc : SyncResult), ∃ new : List String,
      (createLoop snap todo acc).created = acc.created ++ new ∧
      sheetNames (createLoop snap todo acc).ss = sheetNames acc.ss ++ new ∧
      (createLoop snap todo acc).logs = acc.logs ++ new.map LogEntry.createdSheet ∧
      (∀ m ∈ new, m ∉ snap) ∧
      (createLoop snap todo acc).deleted = acc.deleted ∧
      (createLoop snap todo acc).alerts = acc.alerts := by
  intro todo
  induction todo with
  | nil => intro acc; exact ⟨[], by simp [createLoop]⟩
  | cons n rest ih =>
    intro acc
    by_cases hn : n ∈ snap
    · rw [createLoop, if_pos hn]; exact ih acc
    · by_cases hmem : n ∈ sheetNames acc.ss
      · rw [createLoop, if_neg hn, if_pos hmem]
        exact ⟨[], by simp⟩
      · rw [createLoop, if_neg hn, if_neg hmem]
        obtain ⟨new, h1, h2, h3, h4, h5, h6⟩ := ih { acc with ss := insertSheetAtEnd acc.ss n, created := acc.created ++ [n], logs := acc.logs ++ [LogEntry.createdSheet n] }
        refine ⟨n :: new, ?_, ?_, ?_, ?_, ?_, ?_⟩
        · simpa using h1
        · rw [h2, sheetNames_insertSheetAtEnd]; simp
        · simpa using h3
        · intro m hm
          rcases List.mem_cons.mp hm with hm | hm
          · rw [hm]; exact hn
          · exact h4 m hm
        · exact h5
        · exact h6

/-- The create loop either keeps the incoming error state or aborts with a
duplicate-name error on one of the control names. -/
theorem createLoop_err (snap : List String) :
    ∀ (todo : List String) (acc : SyncResult),
      (createLoop snap todo acc).err = acc.err ∨
      ∃ n ∈ todo, (createLoop snap todo acc).err = some (SyncErr.sheetExists n) := by
  intro todo
  induction todo with
  | nil => intro acc; exact Or.inl rfl
  | cons n rest ih =>
    intro acc
    by_cases hn : n ∈ snap
    · rw [createLoop, if_pos hn]
      rcases ih acc with h | ⟨m, hm, h⟩
      · exact Or.inl h
      · exact Or.inr ⟨m, List.mem_cons_of_mem _ hm, h⟩
    · by_cases hmem : n ∈ sheetNames acc.ss
      · rw [createLoop, if_neg hn, if_pos hmem]
        exact Or.inr ⟨n, List.mem_cons_self _ _, rfl⟩
      · rw [createLoop, if_neg hn, if_neg hmem]
        rcases ih _ with h | ⟨m, hm, h⟩
        · exact Or.inl h
        · exact Or.inr ⟨m, List.mem_cons_of_mem _ hm, h⟩

/-! ## `deleteLoop` lemmas -/

/-- The sheets of a snapshot that step 2 schedules for deletion: those
neither in the control list nor protected. -/
def doomedOf (names todo : List String) : List String :=
  todo.filter (fun s => decide (s ∉ names ∧ s ∉ protectedSheets))

theorem dataSaver_mem_protected : CONFIG.dataSaverSheet ∈ protectedSheets := by
  simp [protectedSheets]

theorem doomedOf_cons_skip (names : List String) (s : String) (rest : List String)
    (hc : s ∈ names ∨ s ∈ protectedSheets) :
    doomedOf names (s :: rest) = doomedOf names rest := by
  simp only [doomedOf, List.filter_cons]
  have : ¬(s ∉ names ∧ s ∉ protectedSheets) := by tauto
  simp [this]

theorem doomedOf_cons_doomed (names : List String) (s : String) (rest : List String)
    (hc : ¬(s ∈ names ∨ s ∈ protectedSheets)) :
    doomedOf names (s :: rest) = s :: doomedOf names rest := by
  simp only [doomedOf, List.filter_cons]
  have : s ∉ names ∧ s ∉ protectedSheets := by tauto
  simp [this]

/-- Backing up into `DataSaver` and deleting a different sheet transforms the
archive grid by exactly one `backupSheetData` call. -/
theorem saverGridOf_step (ss : Spreadsheet) (f : Grid → Grid) (s : String)
    (hmem : CONFIG.dataSaverSheet ∈ sheetNames ss) (hne : s ≠ CONFIG.dataSaverSheet) :
    saverGridOf (deleteSheetByName (updateSheet ss CONFIG.dataSaverSheet f) s)
      = f (saverGridOf ss) := by
  obtain ⟨sh, hsh⟩ := getSheetByName_isSome_of_mem _ _ hmem
  have h1 : getSheetByName (deleteSheetByName (updateSheet ss CONFIG.dataSaverSheet f) s)
      CONFIG.dataSaverSheet = some { sh with grid := f sh.grid } := by
    rw [getSheetByName_deleteSheetByName_ne _ _ _ (Ne.symm hne)]
    exact getSheetByName_updateSheet_self _ _ _ _ hsh
  unfold saverGridOf
  rw [h1, hsh]

theorem saver_mem_step (ss : Spreadsheet) (f : Grid → Grid) (s : String)
    (hmem : CONFIG.dataSaverSheet ∈ sheetNames ss) (hne : s ≠ CONFIG.dataSaverSheet) :
    CONFIG.dataSaverSheet ∈
      sheetNames (deleteSheetByName (updateSheet ss CONFIG.dataSaverSheet f) s) := by
  rw [sheetNames_deleteSheetByName, sheetNames_updateSheet]
  exact (List.mem_erase_of_ne (Ne.symm hne)).mpr hmem

/-- Step equation: sheets in the control list or protected are skipped. -/
theorem deleteLoop_cons_skip (now : String) (arch : String → Bool) (names : List String)
    (s : String) (rest : List String) (acc : SyncResult)
    (hc : s ∈ names ∨ s ∈ protectedSheets) :
    deleteLoop now arch names (s :: rest) acc = deleteLoop now arch names rest acc := by
  rw [deleteLoop, if_pos hc]

/-- Step equation: a doomed snapshot name with no matching live sheet is
skipped (unreachable in real runs — snapshot sheets persist until deleted). -/
theorem deleteLoop_cons_missing (now : String) (arch : String → Bool) (names : List String)
    (s : String) (rest : List String) (acc : SyncResult)
    (hc : ¬(s ∈ names ∨ s ∈ protectedSheets))
    (hsh : getSheetByName acc.ss s = none) :
    deleteLoop now arch names (s :: rest) acc = deleteLoop now arch names rest acc := by
  rw [deleteLoop, if_neg hc, hsh]

/-- Step equation: a doomed sheet whose archive write succeeds is backed up
into `DataSaver` and then deleted. -/
theorem deleteLoop_cons_doomed (now : String) (arch : String → Bool) (names : List String)
    (s : String) (rest : List String) (acc : SyncResult) (sh : Sheet)
    (hc : ¬(s ∈ names ∨ s ∈ protectedSheets))
    (hsh : getSheetByName acc.ss s = some sh) (ha : arch s = true) :
    deleteLoop now arch names (s :: rest) acc =
      deleteLoop now arch names rest { acc with ss := deleteSheetByName (updateSheet acc.ss CONFIG.dataSaverSheet (fun g => backupSheetData now sh g)) s, deleted := acc.deleted ++ [s], logs := acc.logs ++ [LogEntry.backedUpAndDeleted s] } := by
  rw [deleteLoop, if_neg hc, hsh]
  simp [ha]

/-- Step equation: a doomed sheet whose archive write fails aborts the loop
with an uncaught exception, keeping the state reached so far. -/
theorem deleteLoop_cons_fail (now : String) (arch : String → Bool) (names : List String)
    (s : String) (rest : List String) (acc : SyncResult) (sh : Sheet)
    (hc : ¬(s ∈ names ∨ s ∈ protectedSheets))
    (hsh : getSheetByName acc.ss s = some sh) (ha : arch s = false) :
    deleteLoop now arch names (s :: rest) acc
      = { acc with err := some (SyncErr.archiveFailed s) } := by
  rw [deleteLoop, if_neg hc, hsh]
  simp [ha]

/-- Closed form of the delete loop when every doomed sheet archives
successfully, is present, and doomed names do not repeat. -/
theorem deleteLoop_spec (now : String) (arch : String → Bool) (names : List String) :
    ∀ (todo : List String) (acc : SyncResult),
    (doomedOf names todo).Nodup →
    (∀ s ∈ doomedOf names todo, arch s = true ∧ s ∈ sheetNames acc.ss) →
    CONFIG.dataSaverSheet ∈ sheetNames acc.ss →
    (deleteLoop now arch names todo acc).err = acc.err ∧
    (deleteLoop now arch names todo acc).deleted = acc.deleted ++ doomedOf names todo ∧
    (deleteLoop now arch names todo acc).created = acc.created ∧
    (deleteLoop now arch names todo acc).alerts = acc.alerts ∧
    (deleteLoop now arch names todo acc).logs
      = acc.logs ++ (doomedOf names todo).map LogEntry.backedUpAndDeleted ∧
    sheetNames (deleteLoop now arch names todo acc).ss
      = (sheetNames acc.ss).diff (doomedOf names todo) ∧
    (∀ n, n ≠ CONFIG.dataSaverSheet → n ∉ doomedOf names todo →
      getSheetByName (deleteLoop now arch names todo acc).ss n
        = getSheetByName acc.ss n) := by
  intro todo
  induction todo with
  | nil =>
    intro acc _ _ _
    show acc.err = acc.err ∧ acc.deleted = acc.deleted ++ doomedOf names [] ∧
      acc.created = acc.created ∧ acc.alerts = acc.alerts ∧
      acc.logs = acc.logs ++ (doomedOf names []).map LogEntry.backedUpAndDeleted ∧
      sheetNames acc.ss = (sheetNames acc.ss).diff (doomedOf names []) ∧ _
    refine ⟨rfl, by simp [doomedOf], rfl, rfl, by simp [doomedOf], by simp [doomedOf], ?_⟩
    intro n _ _; rfl
  | cons s rest ih =>
    intro acc hnd hpre hsaver
    by_cases hc : s ∈ names ∨ s ∈ protectedSheets
    · rw [deleteLoop_cons_skip _ _ _ _ _ _ hc]
      rw [doomedOf_cons_skip _ _ _ hc] at hnd hpre ⊢
      exact ih acc hnd hpre hsaver
    · rw [doomedOf_cons_doomed _ _ _ hc] at hnd hpre ⊢
      have hs := hpre s (List.mem_cons_self _ _)
      obtain ⟨sh, hsh⟩ := getSheetByName_isSome_of_mem _ _ hs.2
      have hsne : s ≠ CONFIG.dataSaverSheet := by
        intro hh
        exact hc (Or.inr (hh ▸ dataSaver_mem_protected))
      rw [deleteLoop_cons_doomed _ _ _ _ _ _ _ hc hsh hs.1]
      have hnames' :
          sheetNames (deleteSheetByName
              (updateSheet acc.ss CONFIG.dataSaverSheet
                (fun g => backupSheetData now sh g)) s)
            = (sheetNames acc.ss).erase s := by
        rw [sheetNames_deleteSheetByName, sheetNames_updateSheet]
      have hpre' : ∀ s' ∈ doomedOf names rest, arch s' = true ∧
          s' ∈ sheetNames (deleteSheetByName
            (updateSheet acc.ss CONFIG.dataSaverSheet (fun g => backupSheetData now sh g)) s) := by
        intro s' hs'
        refine ⟨(hpre s' (List.mem_cons_of_mem _ hs')).1, ?_⟩
        rw [hnames']
        have hs's : s' ≠ s := fun hh => (List.nodup_cons.mp hnd).1 (hh ▸ hs')
        exact (List.mem_erase_of_ne hs's).mpr (hpre s' (List.mem_cons_of_mem _ hs')).2
      have hsaver' : CONFIG.dataSaverSheet ∈ sheetNames (deleteSheetByName
          (updateSheet acc.ss CONFIG.dataSaverSheet (fun g => backupSheetData now sh g)) s) :=
        saver_mem_step _ _ _ hsaver hsne
      obtain ⟨e1, e2, e3, e4, e5, e6, e7⟩ := ih { acc with ss := deleteSheetByName (updateSheet acc.ss CONFIG.dataSaverSheet (fun g => backupSheetData now sh g)) s, deleted := acc.deleted ++ [s], logs := acc.logs ++ [LogEntry.backedUpAndDeleted s] }
        (List.Nodup.of_cons hnd) hpre' hsaver'
      refine ⟨e1, ?_, e3, e4, ?_, ?_, ?_⟩
      · rw [e2]; simp
      · rw [e5]; simp
      · rw [e6]
        show _ = (sheetNames acc.ss).diff (s :: doomedOf names rest)
        rw [List.diff_cons, hnames']
      · intro n hnsaver hnmem
        have hns : n ≠ s := fun hh => hnmem (hh ▸ List.mem_cons_self _ _)
        have hnrest : n ∉ doomedOf names rest :=
          fun hh => hnmem (List.mem_cons_of_mem _ hh)
        rw [e7 n hnsaver hnrest]
        show getSheetByName (deleteSheetByName _ s) n = _
        rw [getSheetByName_deleteSheetByName_ne _ _ _ hns,
            getSheetByName_updateSheet_ne _ _ _ _ hnsaver]

/-- The delete loop only appends to the deletion record. -/
theorem deleteLoop_deleted_mono (now : String) (arch : String → Bool) (names : List String) :
    ∀ (todo : List String) (acc : SyncResult),
      ∃ new, (deleteLoop now arch names todo acc).deleted = acc.deleted ++ new := by
  intro todo
  induction todo with
  | nil => intro acc; exact ⟨[], by simp [deleteLoop]⟩
  | cons s rest ih =>
    intro acc
    by_cases hc : s ∈ names ∨ s ∈ protectedSheets
    · rw [deleteLoop_cons_skip _ _ _ _ _ _ hc]; exact ih acc
    · rcases hsh : getSheetByName acc.ss s with _ | sh
      · rw [deleteLoop_cons_missing _ _ _ _ _ _ hc hsh]; exact ih acc
      · by_cases ha : arch s = true
        · rw [deleteLoop_cons_doomed _ _ _ _ _ _ _ hc hsh ha]
          obtain ⟨new, hnew⟩ := ih { acc with ss := deleteSheetByName (updateSheet acc.ss CONFIG.dataSaverSheet (fun g => backupSheetData now sh g)) s, deleted := acc.deleted ++ [s], logs := acc.logs ++ [LogEntry.backedUpAndDeleted s] }
          exact ⟨s :: new, by simpa using hnew⟩
        · have ha' : arch s = false := by revert ha; cases arch s <;> simp
          rw [deleteLoop_cons_fail _ _ _ _ _ _ _ hc hsh ha']
          exact ⟨[], by simp⟩

/-- Every name the delete loop adds to the deletion record is neither in the
control list nor protected. -/
theorem deleteLoop_deleted_cond (now : String) (arch : String → Bool) (names : List String) :
    ∀ (todo : List String) (acc : SyncResult) (s : String),
      s ∈ (deleteLoop now arch names todo acc).deleted →
      s ∈ acc.deleted ∨ (s ∉ names ∧ s ∉ protectedSheets) := by
  intro todo
  induction todo with
  | nil => intro acc s h; exact Or.inl h
  | cons t rest ih =>
    intro acc s h
    by_cases hc : t ∈ names ∨ t ∈ protectedSheets
    · rw [deleteLoop_cons_skip _ _ _ _ _ _ hc] at h; exact ih acc s h
    · rcases hsh : getSheetByName acc.ss t with _ | sh
      · rw [deleteLoop_cons_missing _ _ _ _ _ _ hc hsh] at h; exact ih acc s h
      · by_cases ha : arch t = true
        · rw [deleteLoop_cons_doomed _ _ _ _ _ _ _ hc hsh ha] at h
          rcases ih _ s h with h1 | h1
          · rcases List.mem_append.mp h1 with h2 | h2
            · exact Or.inl h2
            · have : s = t := by simpa using h2
              subst this
              exact Or.inr (by tauto)
          · exact Or.inr h1
        · have ha' : arch t = false := by revert ha; cases arch t <;> simp
          rw [deleteLoop_cons_fail _ _ _ _ _ _ _ hc hsh ha'] at h
          exact Or.inl h

/-- A sheet present when the delete loop starts is either still present when
it ends or has been recorded as deleted. -/
theorem deleteLoop_mem_preserve (now : String) (arch : String → Bool) (names : List String) :
    ∀ (todo : List String) (acc : SyncResult) (n : String),
      n ∈ sheetNames acc.ss →
      n ∈ sheetNames (deleteLoop now arch names todo acc).ss ∨
        n ∈ (deleteLoop now arch names todo acc).deleted := by
  intro todo
  induction todo with
  | nil => intro acc n h; exact Or.inl h
  | cons t rest ih =>
    intro acc n h
    by_cases hc : t ∈ names ∨ t ∈ protectedSheets
    · rw [deleteLoop_cons_skip _ _ _ _ _ _ hc]; exact ih acc n h
    · rcases hsh : getSheetByName acc.ss t with _ | sh
      · rw [deleteLoop_cons_missing _ _ _ _ _ _ hc hsh]; exact ih acc n h
      · by_cases ha : arch t = true
        · rw [deleteLoop_cons_doomed _ _ _ _ _ _ _ hc hsh ha]
          by_cases hn : n = t
          · right
            obtain ⟨new, hnew⟩ := deleteLoop_deleted_mono now arch names rest
              { acc with ss := deleteSheetByName (updateSheet acc.ss CONFIG.dataSaverSheet (fun g => backupSheetData now sh g)) t, deleted := acc.deleted ++ [t], logs := acc.logs ++ [LogEntry.backedUpAndDeleted t] }
            rw [hnew]
            subst hn
            simp
          · apply ih
            show n ∈ sheetNames (deleteSheetByName _ t)
            rw [sheetNames_deleteSheetByName, sheetNames_updateSheet]
            exact (List.mem_erase_of_ne hn).mpr h
        · have ha' : arch t = false := by revert ha; cases arch t <;> simp
          rw [deleteLoop_cons_fail _ _ _ _ _ _ _ hc hsh ha']
          exact Or.inl h

/-- The delete loop touches neither the alert list nor the creation record. -/
theorem deleteLoop_alerts_created (now : String) (arch : String → Bool) (names : List String) :
    ∀ (todo : List String) (acc : SyncResult),
      (deleteLoop now arch names todo acc).alerts = acc.alerts ∧
      (deleteLoop now arch names todo acc).created = acc.created := by
  intro todo
  induction todo with
  | nil => intro acc; exact ⟨rfl, rfl⟩
  | cons t rest ih =>
    intro acc
    by_cases hc : t ∈ names ∨ t ∈ protectedSheets
    · rw [deleteLoop_cons_skip _ _ _ _ _ _ hc]; exact ih acc
    · rcases hsh : getSheetByName acc.ss t with _ | sh
      · rw [deleteLoop_cons_missing _ _ _ _ _ _ hc hsh]; exact ih acc
      · by_cases ha : arch t = true
        · rw [deleteLoop_cons_doomed _ _ _ _ _ _ _ hc hsh ha]; exact ih _
        · have ha' : arch t = false := by revert ha; cases arch t <;> simp
          rw [deleteLoop_cons_fail _ _ _ _ _ _ _ hc hsh ha']
          exact ⟨rfl, rfl⟩

/-- Every sheet the delete loop deletes was archived first: its archive
oracle said yes, and the final archive grid holds a record bearing its
name. -/
theorem deleteLoop_archived (now : String) (arch : String → Bool) (names : List String) :
    ∀ (todo : List String) (acc : SyncResult),
      CONFIG.dataSaverSheet ∈ sheetNames acc.ss →
      (∀ s ∈ acc.deleted, arch s = true ∧
        archiveHasRecordFor (saverGridOf acc.ss) s = true) →
      CONFIG.dataSaverSheet ∈ sheetNames (deleteLoop now arch names todo acc).ss ∧
      (∀ s ∈ (deleteLoop now arch names todo acc).deleted, arch s = true ∧
        archiveHasRecordFor (saverGridOf (deleteLoop now arch names todo acc).ss) s
          = true) := by
  intro todo
  induction todo with
  | nil => intro acc hsaver hinv; exact ⟨hsaver, hinv⟩
  | cons t rest ih =>
    intro acc hsaver hinv
    by_cases hc : t ∈ names ∨ t ∈ protectedSheets
    · rw [deleteLoop_cons_skip _ _ _ _ _ _ hc]; exact ih acc hsaver hinv
    · rcases hsh : getSheetByName acc.ss t with _ | sh
      · rw [deleteLoop_cons_missing _ _ _ _ _ _ hc hsh]; exact ih acc hsaver hinv
      · have htne : t ≠ CONFIG.dataSaverSheet := by
          intro hh
          exact hc (Or.inr (hh ▸ dataSaver_mem_protected))
        by_cases ha : arch t = true
        · rw [deleteLoop_cons_doomed _ _ _ _ _ _ _ hc hsh ha]
          have hgrid := saverGridOf_step acc.ss (fun g => backupSheetData now sh g) t hsaver htne
          apply ih
          · exact saver_mem_step _ _ _ hsaver htne
          · intro s hs
            show arch s = true ∧ archiveHasRecordFor
              (saverGridOf (deleteSheetByName (updateSheet acc.ss CONFIG.dataSaverSheet
                (fun g => backupSheetData now sh g)) t)) s = true
            rw [hgrid]
            rcases List.mem_append.mp hs with h1 | h1
            · exact ⟨(hinv s h1).1,
                archiveHasRecordFor_backup_mono _ _ _ _ (hinv s h1).2⟩
            · have hst : s = t := by simpa using h1
              subst hst
              have hname : sh.name = s := getSheetByName_name _ _ _ hsh
              exact ⟨ha, hname ▸ archiveHasRecordFor_backup_self now sh (saverGridOf acc.ss)⟩
        · have ha' : arch t = false := by revert ha; cases arch t <;> simp
          rw [deleteLoop_cons_fail _ _ _ _ _ _ _ hc hsh ha']
          exact ⟨hsaver, hinv⟩

/-- If the delete loop aborts with an archive failure for `s`, then `s` was
not deleted and is still present. -/
theorem deleteLoop_failed (now : String) (arch : String → Bool) (names : List String) :
    ∀ (todo : List String) (acc : SyncResult), acc.err = none →
      (sheetNames acc.ss).Nodup →
      (∀ s' ∈ acc.deleted, s' ∉ sheetNames acc.ss) →
      ∀ s, (deleteLoop now arch names todo acc).err = some (SyncErr.archiveFailed s) →
        s ∈ sheetNames (deleteLoop now arch names todo acc).ss ∧
        s ∉ (deleteLoop now arch names todo acc).deleted := by
  intro todo
  induction todo with
  | nil =>
    intro acc herr _ _ s h
    rw [show deleteLoop now arch names [] acc = acc from rfl, herr] at h
    exact absurd h (by simp)
  | cons t rest ih =>
    intro acc herr hnd hdisj s h
    by_cases hc : t ∈ names ∨ t ∈ protectedSheets
    · rw [deleteLoop_cons_skip _ _ _ _ _ _ hc] at h ⊢
      exact ih acc herr hnd hdisj s h
    · rcases hsh : getSheetByName acc.ss t with _ | sh
      · rw [deleteLoop_cons_missing _ _ _ _ _ _ hc hsh] at h ⊢
        exact ih acc herr hnd hdisj s h
      · by_cases ha : arch t = true
        · rw [deleteLoop_cons_doomed _ _ _ _ _ _ _ hc hsh ha] at h ⊢
          have hnames' : sheetNames (deleteSheetByName (updateSheet acc.ss
              CONFIG.dataSaverSheet (fun g => backupSheetData now sh g)) t)
              = (sheetNames acc.ss).erase t := by
            rw [sheetNames_deleteSheetByName, sheetNames_updateSheet]
          refine ih { acc with ss := deleteSheetByName (updateSheet acc.ss CONFIG.dataSaverSheet (fun g => backupSheetData now sh g)) t, deleted := acc.deleted ++ [t], logs := acc.logs ++ [LogEntry.backedUpAndDeleted t] } herr ?_ ?_ s h
          · show ((sheetNames (deleteSheetByName (updateSheet acc.ss CONFIG.dataSaverSheet
              (fun g => backupSheetData now sh g)) t))).Nodup
            rw [hnames']
            exact List.Nodup.erase _ hnd
          · intro s' hs'
            show s' ∉ sheetNames (deleteSheetByName (updateSheet acc.ss CONFIG.dataSaverSheet
              (fun g => backupSheetData now sh g)) t)
            rw [hnames']
            rcases List.mem_append.mp hs' with h1 | h1
            · exact fun hmem => hdisj s' h1 (List.mem_of_mem_erase hmem)
            · have hst : s' = t := by simpa using h1
              subst hst
              intro hmem
              exact absurd ((List.Nodup.mem_erase_iff hnd).mp hmem).1 (by simp)
        · have ha' : arch t = false := by revert ha; cases arch t <;> simp
          rw [deleteLoop_cons_fail _ _ _ _ _ _ _ hc hsh ha'] at h ⊢
          have hst : s = t := by
            have : SyncErr.archiveFailed t = SyncErr.archiveFailed s := by
              simpa using h
            cases this; rfl
          subst hst
          constructor
          · exact mem_sheetNames_of_getSheetByName _ _ _ hsh
          · intro hmem
            exact hdisj s hmem (mem_sheetNames_of_getSheetByName _ _ _ hsh)

/-! ## `syncSheets` lemmas -/

theorem not_mem_of_getSheetByName_none (ss : Spreadsheet) (n : String)
    (h : getSheetByName ss n = none) : n ∉ sheetNames ss := by
  intro hmem
  obtain ⟨sh, hsh⟩ := getSheetByName_isSome_of_mem _ _ hmem
  rw [hsh] at h
  exact absurd h (by simp)

theorem sheetNames_append (a b : Spreadsheet) :
    sheetNames (a ++ b) = sheetNames a ++ sheetNames b := by
  simp [sheetNames]

theorem sheetNames_mkList (l : List String) :
    sheetNames (l.map (fun n => ({ name := n, grid := [] } : Sheet))) = l := by
  induction l with
  | nil => rfl
  | cons x xs ih => simp [sheetNames] at ih ⊢; exact ih

theorem updateSheet_append_right (ss ts : Spreadsheet) (n : String) (f : Grid → Grid)
    (h : n ∉ sheetNames ss) :
    updateSheet (ss ++ ts) n f = ss ++ updateSheet ts n f := by
  induction ss with
  | nil => rfl
  | cons x xs ih =>
    have hx : ¬ x.name = n := fun hh =>
      h (show n ∈ x.name :: sheetNames xs from hh ▸ List.mem_cons_self _ _)
    have h2 : n ∉ sheetNames xs := fun hh =>
      h (show n ∈ x.name :: sheetNames xs from List.mem_cons_of_mem _ hh)
    rw [List.cons_append, updateSheet, if_neg hx, ih h2, List.cons_append]

theorem ensureDataSaver_present (ss : Spreadsheet)
    (h : CONFIG.dataSaverSheet ∈ sheetNames ss) : ensureDataSaver ss = ss := by
  obtain ⟨sh, hsh⟩ := getSheetByName_isSome_of_mem _ _ h
  unfold ensureDataSaver
  rw [hsh]

theorem ensureDataSaver_absent (ss : Spreadsheet)
    (h : getSheetByName ss CONFIG.dataSaverSheet = none) :
    ensureDataSaver ss
      = ss ++ [{ name := CONFIG.dataSaverSheet, grid := dataSaverHeaderGrid }] := by
  unfold ensureDataSaver
  rw [h]
  show updateSheet (insertSheetAtEnd ss CONFIG.dataSaverSheet) CONFIG.dataSaverSheet _ = _
  unfold insertSheetAtEnd
  rw [updateSheet_append_right _ _ _ _ (not_mem_of_getSheetByName_none _ _ h)]
  rfl

theorem syncSheets_some (now : String) (arch : String → Bool) (ss : Spreadsheet) (c : Sheet)
    (hc : getSheetByName ss CONFIG.controlSheet = some c) :
    syncSheets now arch ss = syncSheetsBody now arch ss c := by
  unfold syncSheets
  rw [hc]

theorem syncSheets_none (now : String) (arch : String → Bool) (ss : Spreadsheet)
    (hc : getSheetByName ss CONFIG.controlSheet = none) :
    syncSheets now arch ss = { emptyResult ss with alerts := [Alert.controlSheetNotFound] } := by
  unfold syncSheets
  rw [hc]

/-- The happy-path behavior of one `syncSheets` run: with the control and
archive sheets present, duplicate-free sheet names and control names, and no
archive failures, the run creates exactly the control names missing from the
sheet set and deletes exactly the unlisted, unprotected sheets. -/
theorem syncSheets_spec (now : String) (arch : String → Bool) (ss : Spreadsheet) (c : Sheet)
    (hc : getSheetByName ss CONFIG.controlSheet = some c)
    (hd : CONFIG.dataSaverSheet ∈ sheetNames ss)
    (hndE : (sheetNames ss).Nodup)
    (hndL : (readControlNames c.grid).Nodup)
    (harch : ∀ s, arch s = true) :
    (syncSheets now arch ss).err = none ∧
    (syncSheets now arch ss).alerts = [] ∧
    (syncSheets now arch ss).created
      = (readControlNames c.grid).filter (fun n => decide (n ∉ sheetNames ss)) ∧
    (syncSheets now arch ss).deleted
      = doomedOf (readControlNames c.grid) (sheetNames ss) ∧
    sheetNames (syncSheets now arch ss).ss
      = (sheetNames ss).filter
          (fun s => decide (s ∈ readControlNames c.grid ∨ s ∈ protectedSheets))
        ++ (readControlNames c.grid).filter (fun n => decide (n ∉ sheetNames ss)) ∧
    getSheetByName (syncSheets now arch ss).ss CONFIG.controlSheet = some c := by
  have hens := ensureDataSaver_present ss hd
  have hclosed := createLoop_spec (sheetNames ss) (readControlNames c.grid) (emptyResult ss)
    (List.Nodup.filter _ hndL) (fun n _ h => h)
  rw [syncSheets_some now arch ss c hc]
  unfold syncSheetsBody
  dsimp only
  rw [hens, hclosed]
  dsimp only [emptyResult, List.nil_append]
  rw [if_pos rfl]
  have hnames1 : sheetNames (ss ++ List.map (fun n => ({ name := n, grid := [] } : Sheet))
        (List.filter (fun n => decide (n ∉ sheetNames ss)) (readControlNames c.grid)))
      = sheetNames ss
        ++ List.filter (fun n => decide (n ∉ sheetNames ss)) (readControlNames c.grid) := by
    rw [sheetNames_append, sheetNames_mkList]
  have hpre : ∀ s ∈ doomedOf (readControlNames c.grid) (sheetNames ss), arch s = true ∧
      s ∈ sheetNames (ss ++ List.map (fun n => ({ name := n, grid := [] } : Sheet))
        (List.filter (fun n => decide (n ∉ sheetNames ss)) (readControlNames c.grid))) := by
    intro s hs
    refine ⟨harch s, ?_⟩
    rw [hnames1]
    exact List.mem_append_left _ (List.mem_of_mem_filter hs)
  have hsaver : CONFIG.dataSaverSheet ∈
      sheetNames (ss ++ List.map (fun n => ({ name := n, grid := [] } : Sheet))
        (List.filter (fun n => decide (n ∉ sheetNames ss)) (readControlNames c.grid))) := by
    rw [hnames1]
    exact List.mem_append_left _ hd
  obtain ⟨e1, e2, e3, e4, e5, e6, e7⟩ :=
    deleteLoop_spec now arch (readControlNames c.grid) (sheetNames ss)
      { ss := ss ++ List.map (fun n => ({ name := n, grid := [] } : Sheet)) (List.filter (fun n => decide (n ∉ sheetNames ss)) (readControlNames c.grid)), alerts := [], logs := List.map LogEntry.createdSheet (List.filter (fun n => decide (n ∉ sheetNames ss)) (readControlNames c.grid)), created := List.filter (fun n => decide (n ∉ sheetNames ss)) (readControlNames c.grid), deleted := [], err := none }
      (List.Nodup.filter _ hndE) hpre hsaver
  rw [e1]
  rw [if_pos rfl]
  have hcontrol_ne : CONFIG.controlSheet ≠ CONFIG.dataSaverSheet := by decide
  have hcontrol_prot : CONFIG.controlSheet ∈ protectedSheets := by simp [protectedSheets]
  have hcontrol_nd : CONFIG.controlSheet ∉ doomedOf (readControlNames c.grid) (sheetNames ss) := by
    intro hmem
    have := (List.mem_filter.mp hmem).2
    rw [decide_eq_true_eq] at this
    exact this.2 hcontrol_prot
  have hdisjEF : (sheetNames ss).Disjoint
      (List.filter (fun n => decide (n ∉ sheetNames ss)) (readControlNames c.grid)) := by
    intro a haE haF
    have := (List.mem_filter.mp haF).2
    rw [decide_eq_true_eq] at this
    exact this haE
  have hndEF : ((sheetNames ss)
      ++ List.filter (fun n => decide (n ∉ sheetNames ss)) (readControlNames c.grid)).Nodup :=
    List.Nodup.append hndE (List.Nodup.filter _ hndL) hdisjEF
  refine ⟨rfl, e4, e3, by rw [e2]; simp, ?_, ?_⟩
  · show sheetNames (deleteLoop now arch (readControlNames c.grid) (sheetNames ss) _).ss = _
    rw [e6, hnames1, List.Nodup.diff_eq_filter hndEF, List.filter_append]
    congr 1
    · apply List.filter_congr
      intro s hsE
      rw [decide_eq_decide]
      constructor
      · intro hnd2
        by_contra hcon
        rw [not_or] at hcon
        exact hnd2 (List.mem_filter.mpr ⟨hsE, by rw [decide_eq_true_eq]; exact ⟨hcon.1, hcon.2⟩⟩)
      · intro hor hmem
        have := (List.mem_filter.mp hmem).2
        rw [decide_eq_true_eq] at this
        rcases hor with h | h
        · exact this.1 h
        · exact this.2 h
    · apply List.filter_eq_self.mpr
      intro n hnF
      rw [decide_eq_true_eq]
      intro hmem
      have hnE := (List.mem_filter.mp hnF).2
      rw [decide_eq_true_eq] at hnE
      exact hnE (List.mem_of_mem_filter hmem)
  · show getSheetByName (deleteLoop now arch (readControlNames c.grid) (sheetNames ss) _).ss
      CONFIG.controlSheet = some c
    rw [e7 _ hcontrol_ne hcontrol_nd]
    exact getSheetByName_append_left _ _ _ _ hc

/-! ## Claim theorems -/

/-- C1: for every control list `L` (the non-empty names read from the
control range) and every set `E` of existing sheets, one run of `syncSheets`
creates exactly the sheets named in `L − E` and deletes exactly the sheets in
`E − L − protected`, and running `syncSheets` again immediately afterwards
with unchanged inputs performs zero creates and zero deletes.

Hypotheses: the control sheet is present (it carries the control range the
claim quantifies over) and the archive sheet is already in `E` (its
bootstrap creation is the separate claim C9); sheet names are unique (a host
invariant — `insertSheet` refuses duplicates) and the control list is
duplicate-free (the spec declares duplicate control names undefined
behavior, §3/§9); every archive write succeeds (`arch ≡ true`), archive
failure being the separate claim C2. -/
theorem claim1_reconcile_exact_and_idempotent
    (now now2 : String) (arch : String → Bool) (ss : Spreadsheet) (c : Sheet)
    (hc : getSheetByName ss CONFIG.controlSheet = some c)
    (hd : CONFIG.dataSaverSheet ∈ sheetNames ss)
    (hndE : (sheetNames ss).Nodup)
    (hndL : (readControlNames c.grid).Nodup)
    (harch : ∀ s, arch s = true) :
    (syncSheets now arch ss).err = none ∧
    (syncSheets now arch ss).created
      = (readControlNames c.grid).filter (fun n => decide (n ∉ sheetNames ss)) ∧
    (syncSheets now arch ss).deleted
      = (sheetNames ss).filter
          (fun s => decide (s ∉ readControlNames c.grid ∧ s ∉ protectedSheets)) ∧
    (syncSheets now2 arch (syncSheets now arch ss).ss).created = [] ∧
    (syncSheets now2 arch (syncSheets now arch ss).ss).deleted = [] := by
  obtain ⟨h1, h2, h3, h4, h5, h6⟩ := syncSheets_spec now arch ss c hc hd hndE hndL harch
  have hsaver_prot : CONFIG.dataSaverSheet ∈ protectedSheets := dataSaver_mem_protected
  have hd2 : CONFIG.dataSaverSheet ∈ sheetNames (syncSheets now arch ss).ss := by
    rw [h5]
    apply List.mem_append_left
    exact List.mem_filter.mpr ⟨hd, by rw [decide_eq_true_eq]; exact Or.inr hsaver_prot⟩
  have hndE2 : (sheetNames (syncSheets now arch ss).ss).Nodup := by
    rw [h5]
    refine List.Nodup.append (List.Nodup.filter _ hndE) (List.Nodup.filter _ hndL) ?_
    intro a ha1 ha2
    have h1' := List.mem_of_mem_filter ha1
    have h2' := (List.mem_filter.mp ha2).2
    rw [decide_eq_true_eq] at h2'
    exact h2' h1'
  obtain ⟨g1, g2, g3, g4, g5, g6⟩ :=
    syncSheets_spec now2 arch (syncSheets now arch ss).ss c h6 hd2 hndE2 hndL harch
  refine ⟨h1, h3, h4, ?_, ?_⟩
  · rw [g3, List.filter_eq_nil_iff]
    intro n hn
    rw [decide_eq_true_eq, not_not]
    rw [h5]
    by_cases hne : n ∈ sheetNames ss
    · exact List.mem_append_left _
        (List.mem_filter.mpr ⟨hne, by rw [decide_eq_true_eq]; exact Or.inl hn⟩)
    · exact List.mem_append_right _
        (List.mem_filter.mpr ⟨hn, by rw [decide_eq_true_eq]; exact hne⟩)
  · rw [g4]
    show (sheetNames (syncSheets now arch ss).ss).filter _ = []
    rw [List.filter_eq_nil_iff]
    intro s hs
    rw [decide_eq_true_eq]
    rw [h5] at hs
    rcases List.mem_append.mp hs with hsl | hsr
    · have := (List.mem_filter.mp hsl).2
      rw [decide_eq_true_eq] at this
      rcases this with h | h
      · exact fun hcontra => hcontra.1 h
      · exact fun hcontra => hcontra.2 h
    · have := (List.mem_filter.mp hsr).1
      exact fun hcontra => hcontra.1 this

/-- A cell holding just a value, for concrete test spreadsheets. -/
def wCell (v : String) : Cell := { emptyCell with value := v }

/-- A concrete `DataSaver` grid holding only its header row. -/
def wSaverGrid : Grid := [[wCell "Deleted Date", wCell "Sheet Name", wCell "Data Starts Below"]]

/-- A control grid listing `A` (in A2) and `B` (in A3). -/
def c1ControlGrid : Grid := [[], [wCell "A"], [wCell "B"]]

/-- Concrete spreadsheet: control list `[A, B]`, existing sheets
`DataValidation, DataSaver, Sheet1, A, C`. -/
def c1ss : Spreadsheet :=
  [ { name := "DataValidation", grid := c1ControlGrid },
    { name := "DataSaver", grid := wSaverGrid },
    { name := "Sheet1", grid := [] },
    { name := "A", grid := [[wCell "a1"]] },
    { name := "C", grid := [[wCell "c1", wCell "c2"]] } ]

/-- Witness for C1 at a concrete input: `L = [A, B]`,
`E = {DataValidation, DataSaver, Sheet1, A, C}` gives one create (`B`), one
delete (`C`), and an idempotent second run. -/
theorem claim1_witness :
    (syncSheets "t1" (fun _ => true) c1ss).err = none ∧
    (syncSheets "t1" (fun _ => true) c1ss).created = ["B"] ∧
    (syncSheets "t1" (fun _ => true) c1ss).deleted = ["C"] ∧
    (syncSheets "t2" (fun _ => true) (syncSheets "t1" (fun _ => true) c1ss).ss).created = [] ∧
    (syncSheets "t2" (fun _ => true) (syncSheets "t1" (fun _ => true) c1ss).ss).deleted = [] := by
  obtain ⟨h1, h2, h3, h4, h5⟩ := claim1_reconcile_exact_and_idempotent "t1" "t2"
    (fun _ => true) c1ss { name := "DataValidation", grid := c1ControlGrid }
    (by decide) (by decide) (by decide) (by decide) (fun _ => rfl)
  exact ⟨h1, h2.trans (by decide), h3.trans (by decide), h4, h5⟩

theorem mem_sheetNames_ensureDataSaver (ss : Spreadsheet) (n : String)
    (h : n ∈ sheetNames ss) : n ∈ sheetNames (ensureDataSaver ss) := by
  rcases hd : getSheetByName ss CONFIG.dataSaverSheet with _ | sh
  · rw [ensureDataSaver_absent ss hd, sheetNames_append]
    exact List.mem_append_left _ h
  · rw [ensureDataSaver_present ss (mem_sheetNames_of_getSheetByName _ _ _ hd)]
    exact h

/-- C4: the control sheet, the archive sheet, and the fixed protected names
are never deleted by `syncSheets`, and any sheet is deleted only when its
name is absent from the control list at reconciliation time and it is not
protected — after every run, for every control list and starting sheet set
(including aborted runs). -/
theorem claim4_protected_invariant (now : String) (arch : String → Bool)
    (ss : Spreadsheet) :
    (∀ s ∈ (syncSheets now arch ss).deleted,
        s ∉ controlNamesOf ss ∧ s ∉ protectedSheets) ∧
    (∀ p ∈ protectedSheets, p ∈ sheetNames ss →
        p ∈ sheetNames (syncSheets now arch ss).ss) := by
  rcases hctrl : getSheetByName ss CONFIG.controlSheet with _ | c
  · rw [syncSheets_none now arch ss hctrl]
    exact ⟨fun s hs => absurd hs (by simp [emptyResult]), fun p _ hp => hp⟩
  · rw [syncSheets_some now arch ss c hctrl]
    have hnamesOf : controlNamesOf ss = readControlNames c.grid := by
      unfold controlNamesOf
      rw [hctrl]
    unfold syncSheetsBody
    dsimp only
    obtain ⟨new, k1, k2, k3, k4, k5, k6⟩ :=
      createLoop_general (sheetNames (ensureDataSaver ss)) (readControlNames c.grid)
        (emptyResult (ensureDataSaver ss))
    by_cases herr1 : (createLoop (sheetNames (ensureDataSaver ss)) (readControlNames c.grid)
        (emptyResult (ensureDataSaver ss))).err = none
    · rw [if_pos herr1]
      constructor
      · intro s hs
        have hdel : s ∈ (deleteLoop now arch (readControlNames c.grid)
            (sheetNames (ensureDataSaver ss))
            (createLoop (sheetNames (ensureDataSaver ss)) (readControlNames c.grid)
              (emptyResult (ensureDataSaver ss)))).deleted := by
          by_cases herr2 : (deleteLoop now arch (readControlNames c.grid)
              (sheetNames (ensureDataSaver ss))
              (createLoop (sheetNames (ensureDataSaver ss)) (readControlNames c.grid)
                (emptyResult (ensureDataSaver ss)))).err = none
          · rw [if_pos herr2] at hs
            exact hs
          · rw [if_neg herr2] at hs
            exact hs
        rcases deleteLoop_deleted_cond now arch _ _ _ s hdel with h | h
        · rw [k5] at h
          exact absurd h (by simp [emptyResult])
        · rw [hnamesOf]
          exact h
      · intro p hp hpmem
        have hp1 : p ∈ sheetNames (createLoop (sheetNames (ensureDataSaver ss))
            (readControlNames c.grid) (emptyResult (ensureDataSaver ss))).ss := by
          rw [k2]
          exact List.mem_append_left _ (mem_sheetNames_ensureDataSaver ss p hpmem)
        have hp2 : p ∈ sheetNames (deleteLoop now arch (readControlNames c.grid)
            (sheetNames (ensureDataSaver ss))
            (createLoop (sheetNames (ensureDataSaver ss)) (readControlNames c.grid)
              (emptyResult (ensureDataSaver ss)))).ss := by
          rcases deleteLoop_mem_preserve now arch _ _ _ p hp1 with h | h
          · exact h
          · rcases deleteLoop_deleted_cond now arch _ _ _ p h with h2 | h2
            · rw [k5] at h2
              exact absurd h2 (by simp [emptyResult])
            · exact absurd hp h2.2
        by_cases herr2 : (deleteLoop now arch (readControlNames c.grid)
            (sheetNames (ensureDataSaver ss))
            (createLoop (sheetNames (ensureDataSaver ss)) (readControlNames c.grid)
              (emptyResult (ensureDataSaver ss)))).err = none
        · rw [if_pos herr2]
          exact hp2
        · rw [if_neg herr2]
          exact hp2
    · rw [if_neg herr1]
      constructor
      · intro s hs
        rw [k5] at hs
        exact absurd hs (by simp [emptyResult])
      · intro p hp hpmem
        rw [k2]
        exact List.mem_append_left _ (mem_sheetNames_ensureDataSaver ss p hpmem)

/-- Witness for C4 at a concrete input: after syncing `c1ss`, the protected
sheet `Sheet1` survives, and the one deleted name `C` was neither listed nor
protected. -/
theorem claim4_witness :
    "Sheet1" ∈ sheetNames (syncSheets "t1" (fun _ => true) c1ss).ss ∧
    "C" ∉ controlNamesOf c1ss ∧ "C" ∉ protectedSheets := by
  have h := claim4_protected_invariant "t1" (fun _ => true) c1ss
  exact ⟨h.2 "Sheet1" (by decide) (by decide), h.1 "C" (by decide)⟩

theorem saver_mem_ensureDataSaver (ss : Spreadsheet) :
    CONFIG.dataSaverSheet ∈ sheetNames (ensureDataSaver ss) := by
  rcases hd : getSheetByName ss CONFIG.dataSaverSheet with _ | sh
  · rw [ensureDataSaver_absent ss hd, sheetNames_append]
    exact List.mem_append_right _ (by simp [sheetNames])
  · rw [ensureDataSaver_present ss (mem_sheetNames_of_getSheetByName _ _ _ hd)]
    exact mem_sheetNames_of_getSheetByName _ _ _ hd

theorem nodup_sheetNames_ensureDataSaver (ss : Spreadsheet)
    (hnd : (sheetNames ss).Nodup) : (sheetNames (ensureDataSaver ss)).Nodup := by
  rcases hd : getSheetByName ss CONFIG.dataSaverSheet with _ | sh
  · rw [ensureDataSaver_absent ss hd, sheetNames_append]
    refine List.Nodup.append hnd (by simp [sheetNames]) ?_
    intro a ha1 ha2
    have : a = CONFIG.dataSaverSheet := by simpa [sheetNames] using ha2
    subst this
    exact not_mem_of_getSheetByName_none _ _ hd ha1
  · rw [ensureDataSaver_present ss (mem_sheetNames_of_getSheetByName _ _ _ hd)]
    exact hnd

/-- The create loop keeps sheet names duplicate-free (it checks the live
sheet list before inserting). -/
theorem createLoop_nodup (snap : List String) :
    ∀ (todo : List String) (acc : SyncResult), (sheetNames acc.ss).Nodup →
      (sheetNames (createLoop snap todo acc).ss).Nodup := by
  intro todo
  induction todo with
  | nil => intro acc h; exact h
  | cons n rest ih =>
    intro acc h
    by_cases hn : n ∈ snap
    · rw [createLoop, if_pos hn]; exact ih acc h
    · by_cases hmem : n ∈ sheetNames acc.ss
      · rw [createLoop, if_neg hn, if_pos hmem]; exact h
      · rw [createLoop, if_neg hn, if_neg hmem]
        apply ih
        show (sheetNames (insertSheetAtEnd acc.ss n)).Nodup
        rw [sheetNames_insertSheetAtEnd]
        refine List.Nodup.append h (by simp) ?_
        intro a ha1 ha2
        have : a = n := by simpa using ha2
        subst this
        exact hmem ha1

/-- Unconditionally, every sheet a `syncSheets` run deletes had its archive
write succeed, and the final archive grid holds a record named after it. -/
theorem syncSheets_deleted_archived (now : String) (arch : String → Bool)
    (ss : Spreadsheet) :
    ∀ s ∈ (syncSheets now arch ss).deleted, arch s = true ∧
      archiveHasRecordFor (saverGridOf (syncSheets now arch ss).ss) s = true := by
  rcases hctrl : getSheetByName ss CONFIG.controlSheet with _ | c
  · rw [syncSheets_none now arch ss hctrl]
    intro s hs
    exact absurd hs (by simp [emptyResult])
  · rw [syncSheets_some now arch ss c hctrl]
    unfold syncSheetsBody
    dsimp only
    obtain ⟨new, k1, k2, k3, k4, k5, k6⟩ :=
      createLoop_general (sheetNames (ensureDataSaver ss)) (readControlNames c.grid)
        (emptyResult (ensureDataSaver ss))
    have hsaver1 : CONFIG.dataSaverSheet ∈ sheetNames (createLoop
        (sheetNames (ensureDataSaver ss)) (readControlNames c.grid)
        (emptyResult (ensureDataSaver ss))).ss := by
      rw [k2]
      exact List.mem_append_left _ (saver_mem_ensureDataSaver ss)
    by_cases herr1 : (createLoop (sheetNames (ensureDataSaver ss)) (readControlNames c.grid)
        (emptyResult (ensureDataSaver ss))).err = none
    · rw [if_pos herr1]
      have hinv0 : ∀ s ∈ (createLoop (sheetNames (ensureDataSaver ss))
          (readControlNames c.grid) (emptyResult (ensureDataSaver ss))).deleted,
          arch s = true ∧ archiveHasRecordFor (saverGridOf (createLoop
            (sheetNames (ensureDataSaver ss)) (readControlNames c.grid)
            (emptyResult (ensureDataSaver ss))).ss) s = true := by
        intro s hs
        rw [k5] at hs
        exact absurd hs (by simp [emptyResult])
      obtain ⟨harch_saver, harch_rec⟩ := deleteLoop_archived now arch (readControlNames c.grid)
        (sheetNames (ensureDataSaver ss)) _ hsaver1 hinv0
      by_cases herr2 : (deleteLoop now arch (readControlNames c.grid)
          (sheetNames (ensureDataSaver ss))
          (createLoop (sheetNames (ensureDataSaver ss)) (readControlNames c.grid)
            (emptyResult (ensureDataSaver ss)))).err = none
      · rw [if_pos herr2]
        intro s hs
        exact harch_rec s hs
      · rw [if_neg herr2]
        intro s hs
        exact harch_rec s hs
    · rw [if_neg herr1]
      intro s hs
      rw [k5] at hs
      exact absurd hs (by simp [emptyResult])

/-- C2: for every sheet that `syncSheets` schedules for deletion,
`backupSheetData` is invoked and succeeds before `deleteSheet` is called on
it (the final archive grid carries a record named after each deleted sheet,
and each deleted sheet's archive oracle said yes); if the archive operation
fails for a sheet, the error is reported by the propagating exception
(`err = archiveFailed s`, which the host surfaces to the user — the script
itself issues no alert), its deletion is skipped, and the sheet still exists
after the run returns. -/
theorem claim2_archive_before_delete (now : String) (arch : String → Bool)
    (ss : Spreadsheet) (hnd : (sheetNames ss).Nodup) :
    (∀ s ∈ (syncSheets now arch ss).deleted, arch s = true ∧
        archiveHasRecordFor (saverGridOf (syncSheets now arch ss).ss) s = true) ∧
    (∀ s, (syncSheets now arch ss).err = some (SyncErr.archiveFailed s) →
        s ∈ sheetNames (syncSheets now arch ss).ss ∧
        s ∉ (syncSheets now arch ss).deleted ∧
        (syncSheets now arch ss).alerts = []) := by
  refine ⟨syncSheets_deleted_archived now arch ss, ?_⟩
  rcases hctrl : getSheetByName ss CONFIG.controlSheet with _ | c
  · rw [syncSheets_none now arch ss hctrl]
    intro s hs
    exact absurd hs (by simp [emptyResult])
  · rw [syncSheets_some now arch ss c hctrl]
    unfold syncSheetsBody
    dsimp only
    obtain ⟨new, k1, k2, k3, k4, k5, k6⟩ :=
      createLoop_general (sheetNames (ensureDataSaver ss)) (readControlNames c.grid)
        (emptyResult (ensureDataSaver ss))
    by_cases herr1 : (createLoop (sheetNames (ensureDataSaver ss)) (readControlNames c.grid)
        (emptyResult (ensureDataSaver ss))).err = none
    · rw [if_pos herr1]
      by_cases herr2 : (deleteLoop now arch (readControlNames c.grid)
          (sheetNames (ensureDataSaver ss))
          (createLoop (sheetNames (ensureDataSaver ss)) (readControlNames c.grid)
            (emptyResult (ensureDataSaver ss)))).err = none
      · rw [if_pos herr2]
        intro s hs
        rw [herr2] at hs
        exact absurd hs (by simp)
      · rw [if_neg herr2]
        intro s hs
        have hfail := deleteLoop_failed now arch (readControlNames c.grid)
          (sheetNames (ensureDataSaver ss))
          (createLoop (sheetNames (ensureDataSaver ss)) (readControlNames c.grid)
            (emptyResult (ensureDataSaver ss))) herr1
          (createLoop_nodup _ _ _ (nodup_sheetNames_ensureDataSaver ss hnd))
          (by rw [k5]; intro s' hs'; exact absurd hs' (by simp [emptyResult]))
          s hs
        refine ⟨hfail.1, hfail.2, ?_⟩
        rw [(deleteLoop_alerts_created now arch _ _ _).1, k6]
        rfl
    · rw [if_neg herr1]
      intro s hs
      rcases createLoop_err (sheetNames (ensureDataSaver ss)) (readControlNames c.grid)
        (emptyResult (ensureDataSaver ss)) with h | ⟨m, _, h⟩
      · exact absurd (h.trans rfl) herr1
      · rw [h] at hs
        exact absurd hs (by simp)

/-- The spreadsheet for the C2 witness: empty control list, a doomed sheet
whose archive write will fail. -/
def c2ss : Spreadsheet :=
  [ { name := "DataValidation", grid := [[]] },
    { name := "DataSaver", grid := wSaverGrid },
    { name := "Sheet1", grid := [] },
    { name := "Doomed", grid := [[wCell "d"]] } ]

/-- Archive oracle failing exactly on `Doomed`. -/
def c2arch : String → Bool := fun s => decide (¬ s = "Doomed")

theorem createLoop_created_sub (snap : List String) :
    ∀ (todo : List String) (acc : SyncResult) (n : String),
      n ∈ (createLoop snap todo acc).created → n ∈ acc.created ∨ n ∈ todo := by
  intro todo
  induction todo with
  | nil => intro acc n h; exact Or.inl h
  | cons m rest ih =>
    intro acc n h
    by_cases hm : m ∈ snap
    · rw [createLoop, if_pos hm] at h
      rcases ih acc n h with h1 | h1
      · exact Or.inl h1
      · exact Or.inr (List.mem_cons_of_mem _ h1)
    · by_cases hmem : m ∈ sheetNames acc.ss
      · rw [createLoop, if_neg hm, if_pos hmem] at h
        exact Or.inl h
      · rw [createLoop, if_neg hm, if_neg hmem] at h
        rcases ih _ n h with h1 | h1
        · rcases List.mem_append.mp h1 with h2 | h2
          · exact Or.inl h2
          · have : n = m := by simpa using h2
            exact Or.inr (this ▸ List.mem_cons_self _ _)
        · exact Or.inr (List.mem_cons_of_mem _ h1)

theorem blank_not_mem_readControlNames (g : Grid) : "" ∉ readControlNames g := by
  intro h
  have := (List.mem_filter.mp h).2
  simp at this

/-- No run of `syncSheets` ever passes a blank name to `createNewSheet`: the
control range is filtered before reconciliation. -/
theorem syncSheets_created_no_blank (now : String) (arch : String → Bool)
    (ss : Spreadsheet) : "" ∉ (syncSheets now arch ss).created := by
  rcases hctrl : getSheetByName ss CONFIG.controlSheet with _ | c
  · rw [syncSheets_none now arch ss hctrl]
    simp [emptyResult]
  · rw [syncSheets_some now arch ss c hctrl]
    unfold syncSheetsBody
    dsimp only
    have hacc1 : "" ∉ (createLoop (sheetNames (ensureDataSaver ss)) (readControlNames c.grid)
        (emptyResult (ensureDataSaver ss))).created := by
      intro h
      rcases createLoop_created_sub _ _ _ _ h with h1 | h1
      · exact absurd h1 (by simp [emptyResult])
      · exact blank_not_mem_readControlNames c.grid h1
    by_cases herr1 : (createLoop (sheetNames (ensureDataSaver ss)) (readControlNames c.grid)
        (emptyResult (ensureDataSaver ss))).err = none
    · rw [if_pos herr1]
      by_cases herr2 : (deleteLoop now arch (readControlNames c.grid)
          (sheetNames (ensureDataSaver ss))
          (createLoop (sheetNames (ensureDataSaver ss)) (readControlNames c.grid)
            (emptyResult (ensureDataSaver ss)))).err = none
      · rw [if_pos herr2]
        show "" ∉ (deleteLoop now arch _ _ _).created
        rw [(deleteLoop_alerts_created now arch _ _ _).2]
        exact hacc1
      · rw [if_neg herr2]
        rw [(deleteLoop_alerts_created now arch _ _ _).2]
        exact hacc1
    · rw [if_neg herr1]
      exact hacc1

/-- C10: blank cells in the control range are filtered out before
reconciliation — a blank never causes creation of an empty-named sheet — and
when every cell of the control range is blank, `syncSheets` archives and
deletes every sheet except the control sheet, the archive sheet, and the
other protected names. -/
theorem claim10_blank_filtering (now : String) (arch : String → Bool)
    (ss : Spreadsheet) (c : Sheet)
    (hc : getSheetByName ss CONFIG.controlSheet = some c)
    (hd : CONFIG.dataSaverSheet ∈ sheetNames ss)
    (hndE : (sheetNames ss).Nodup)
    (harch : ∀ s, arch s = true)
    (hblank : readControlNames c.grid = []) :
    (∀ (ss2 : Spreadsheet) (now2 : String) (arch2 : String → Bool),
        "" ∉ (syncSheets now2 arch2 ss2).created) ∧
    (syncSheets now arch ss).created = [] ∧
    (syncSheets now arch ss).deleted
      = (sheetNames ss).filter (fun s => decide (s ∉ protectedSheets)) ∧
    sheetNames (syncSheets now arch ss).ss
      = (sheetNames ss).filter (fun s => decide (s ∈ protectedSheets)) ∧
    (∀ s ∈ (syncSheets now arch ss).deleted, arch s = true ∧
        archiveHasRecordFor (saverGridOf (syncSheets now arch ss).ss) s = true) := by
  obtain ⟨h1, h2, h3, h4, h5, h6⟩ :=
    syncSheets_spec now arch ss c hc hd hndE (hblank ▸ List.nodup_nil) harch
  refine ⟨fun ss2 now2 arch2 => syncSheets_created_no_blank now2 arch2 ss2, ?_, ?_, ?_,
    syncSheets_deleted_archived now arch ss⟩
  · rw [h3, hblank]
    rfl
  · rw [h4, hblank]
    show (sheetNames ss).filter _ = _
    apply List.filter_congr
    intro s _
    rw [decide_eq_decide]
    simp
  · rw [h5, hblank]
    show (sheetNames ss).filter _ ++ [] = _
    rw [List.append_nil]
    apply List.filter_congr
    intro s _
    rw [decide_eq_decide]
    simp

/-- The spreadsheet for the C10 witness: an all-blank control range and one
unprotected sheet `X`. -/
def c10ss : Spreadsheet :=
  [ { name := "DataValidation", grid := [[wCell "hdr"]] },
    { name := "DataSaver", grid := wSaverGrid },
    { name := "Sheet1", grid := [] },
    { name := "X", grid := [[wCell "x1"]] } ]

/-- Witness for C10 at a concrete input: with every control cell blank, the
run deletes exactly `X`, keeps exactly the protected sheets, creates
nothing, and archives `X`. -/
theorem claim10_witness :
    (syncSheets "t" (fun _ => true) c10ss).created = [] ∧
    (syncSheets "t" (fun _ => true) c10ss).deleted = ["X"] ∧
    sheetNames (syncSheets "t" (fun _ => true) c10ss).ss
      = ["DataValidation", "DataSaver", "Sheet1"] ∧
    archiveHasRecordFor (saverGridOf (syncSheets "t" (fun _ => true) c10ss).ss) "X"
      = true := by
  obtain ⟨h1, h2, h3, h4, h5⟩ := claim10_blank_filtering "t" (fun _ => true) c10ss
    { name := "DataValidation", grid := [[wCell "hdr"]] }
    (by decide) (by decide) (by decide) (fun _ => rfl) (by decide)
  exact ⟨h2, h3.trans (by decide), h4.trans (by decide), (h5 "X" (by decide)).2⟩

theorem saverGridOf_eq (ss : Spreadsheet) (sh : Sheet)
    (h : getSheetByName ss CONFIG.dataSaverSheet = some sh) : saverGridOf ss = sh.grid := by
  unfold saverGridOf
  rw [h]

/-- The create loop keeps every existing sheet lookup intact (it only
appends new sheets). -/
theorem createLoop_lookup_preserve (snap : List String) :
    ∀ (todo : List String) (acc : SyncResult) (m : String) (sh : Sheet),
      getSheetByName acc.ss m = some sh →
      getSheetByName (createLoop snap todo acc).ss m = some sh := by
  intro todo
  induction todo with
  | nil => intro acc m sh h; exact h
  | cons n rest ih =>
    intro acc m sh h
    by_cases hn : n ∈ snap
    · rw [createLoop, if_pos hn]; exact ih acc m sh h
    · by_cases hmem : n ∈ sheetNames acc.ss
      · rw [createLoop, if_neg hn, if_pos hmem]; exact h
      · rw [createLoop, if_neg hn, if_neg hmem]
        exact ih _ m sh (getSheetByName_append_left _ _ _ _ h)

/-- The delete loop keeps the archive sheet present, and any property of the
archive grid stable under `backupSheetData` appends keeps holding. -/
theorem deleteLoop_saver_preserve (now : String) (arch : String → Bool)
    (names : List String) (P : Grid → Prop)
    (hP : ∀ (sh : Sheet) (g : Grid), P g → P (backupSheetData now sh g)) :
    ∀ (todo : List String) (acc : SyncResult),
      CONFIG.dataSaverSheet ∈ sheetNames acc.ss → P (saverGridOf acc.ss) →
      CONFIG.dataSaverSheet ∈ sheetNames (deleteLoop now arch names todo acc).ss ∧
      P (saverGridOf (deleteLoop now arch names todo acc).ss) := by
  intro todo
  induction todo with
  | nil => intro acc hsaver hp; exact ⟨hsaver, hp⟩
  | cons t rest ih =>
    intro acc hsaver hp
    by_cases hc : t ∈ names ∨ t ∈ protectedSheets
    · rw [deleteLoop_cons_skip _ _ _ _ _ _ hc]; exact ih acc hsaver hp
    · rcases hsh : getSheetByName acc.ss t with _ | sh
      · rw [deleteLoop_cons_missing _ _ _ _ _ _ hc hsh]; exact ih acc hsaver hp
      · have htne : t ≠ CONFIG.dataSaverSheet := by
          intro hh
          exact hc (Or.inr (hh ▸ dataSaver_mem_protected))
        by_cases ha : arch t = true
        · rw [deleteLoop_cons_doomed _ _ _ _ _ _ _ hc hsh ha]
          apply ih
          · exact saver_mem_step _ _ _ hsaver htne
          · show P (saverGridOf (deleteSheetByName (updateSheet acc.ss CONFIG.dataSaverSheet
              (fun g => backupSheetData now sh g)) t))
            rw [saverGridOf_step acc.ss (fun g => backupSheetData now sh g) t hsaver htne]
            exact hP sh _ hp
        · have ha' : arch t = false := by revert ha; cases arch t <;> simp
          rw [deleteLoop_cons_fail _ _ _ _ _ _ _ hc hsh ha']
          exact ⟨hsaver, hp⟩

/-- The delete loop only appends backup-and-delete entries to the log. -/
theorem deleteLoop_logs_mono (now : String) (arch : String → Bool) (names : List String) :
    ∀ (todo : List String) (acc : SyncResult),
      ∃ dnew : List String, (deleteLoop now arch names todo acc).logs
        = acc.logs ++ dnew.map LogEntry.backedUpAndDeleted := by
  intro todo
  induction todo with
  | nil => intro acc; exact ⟨[], by simp [deleteLoop]⟩
  | cons t rest ih =>
    intro acc
    by_cases hc : t ∈ names ∨ t ∈ protectedSheets
    · rw [deleteLoop_cons_skip _ _ _ _ _ _ hc]; exact ih acc
    · rcases hsh : getSheetByName acc.ss t with _ | sh
      · rw [deleteLoop_cons_missing _ _ _ _ _ _ hc hsh]; exact ih acc
      · by_cases ha : arch t = true
        · rw [deleteLoop_cons_doomed _ _ _ _ _ _ _ hc hsh ha]
          obtain ⟨dnew, hnew⟩ := ih { acc with ss := deleteSheetByName (updateSheet acc.ss CONFIG.dataSaverSheet (fun g => backupSheetData now sh g)) t, deleted := acc.deleted ++ [t], logs := acc.logs ++ [LogEntry.backedUpAndDeleted t] }
          exact ⟨t :: dnew, by simpa using hnew⟩
        · have ha' : arch t = false := by revert ha; cases arch t <;> simp
          rw [deleteLoop_cons_fail _ _ _ _ _ _ _ hc hsh ha']
          exact ⟨[], by simp⟩

/-- The delete loop either keeps the incoming error or aborts with an
archive failure. -/
theorem deleteLoop_err (now : String) (arch : String → Bool) (names : List String) :
    ∀ (todo : List String) (acc : SyncResult),
      (deleteLoop now arch names todo acc).err = acc.err ∨
      ∃ s, (deleteLoop now arch names todo acc).err = some (SyncErr.archiveFailed s) := by
  intro todo
  induction todo with
  | nil => intro acc; exact Or.inl rfl
  | cons t rest ih =>
    intro acc
    by_cases hc : t ∈ names ∨ t ∈ protectedSheets
    · rw [deleteLoop_cons_skip _ _ _ _ _ _ hc]; exact ih acc
    · rcases hsh : getSheetByName acc.ss t with _ | sh
      · rw [deleteLoop_cons_missing _ _ _ _ _ _ hc hsh]; exact ih acc
      · by_cases ha : arch t = true
        · rw [deleteLoop_cons_doomed _ _ _ _ _ _ _ hc hsh ha]
          exact ih _
        · have ha' : arch t = false := by revert ha; cases arch t <;> simp
          rw [deleteLoop_cons_fail _ _ _ _ _ _ _ hc hsh ha']
          exact Or.inr ⟨t, rfl⟩

/-- `onEdit` unfolded once the edited sheet has been found. -/
theorem onEdit_some (now : String) (arch : String → Bool) (appendOk : Bool)
    (e : EditEvent) (ss : Spreadsheet) (sheet : Sheet)
    (hsrc : getSheetByName ss e.sheetName = some sheet) :
    onEdit now arch appendOk e ss =
      (if e.col = 5 then
        if valueAt sheet.grid e.row 5 ≠ "" then
          match getSheetByName ss (valueAt sheet.grid e.row 5) with
          | none =>
            { emptyResult ss with
              alerts := [Alert.targetSheetNotFound (valueAt sheet.grid e.row 5)] }
          | some _ =>
            if appendOk then
              runSyncBranch now arch e
                { emptyResult (deleteRowInSheet
                    (appendRowToSheet ss (valueAt sheet.grid e.row 5)
                      (getRowValues sheet.grid e.row 1 (getLastColumn sheet.grid)))
                    e.sheetName e.row) with
                  logs := [LogEntry.movedRow e.row (valueAt sheet.grid e.row 5)] }
            else { emptyResult ss with err := some (SyncErr.appendFailed e.sheetName) }
        else runSyncBranch now arch e (emptyResult ss)
      else runSyncBranch now arch e (emptyResult ss)) := by
  unfold onEdit
  rw [hsrc]

/-- A column-5 edit never fires the control-range sync branch
(`5 ≠ CONFIG.nameColumn`). -/
theorem runSyncBranch_col5 (now : String) (arch : String → Bool) (e : EditEvent)
    (acc : SyncResult) (hcol : e.col = 5) :
    runSyncBranch now arch e acc = acc := by
  unfold runSyncBranch
  rw [if_neg]
  rintro ⟨_, h2, _⟩
  rw [hcol] at h2
  exact absurd h2 (by decide)

/-- C5: for every status-column edit, if the new status value is empty the
handler is a no-op, and if the value names no existing sheet the handler
alerts `Sheet "<v>" does not exist.` and leaves every sheet untouched — in
both cases no sheet's contents change (the result spreadsheet is the input
one). -/
theorem claim5_empty_or_missing_status (now : String) (arch : String → Bool)
    (appendOk : Bool) (e : EditEvent) (ss : Spreadsheet) (src : Sheet)
    (hsrc : getSheetByName ss e.sheetName = some src) (hcol : e.col = 5) :
    (valueAt src.grid e.row 5 = "" →
      onEdit now arch appendOk e ss = emptyResult ss) ∧
    (∀ v, valueAt src.grid e.row 5 = v → v ≠ "" → getSheetByName ss v = none →
      onEdit now arch appendOk e ss
        = { emptyResult ss with alerts := [Alert.targetSheetNotFound v] }) := by
  rw [onEdit_some now arch appendOk e ss src hsrc]
  constructor
  · intro hval
    rw [if_pos hcol, hval, if_neg (by simp), runSyncBranch_col5 now arch e _ hcol]
  · intro v hv hvne hnone
    rw [if_pos hcol, hv, if_pos hvne, hnone]

/-- `onEdit` on a successful migration: the row is appended to the target
and deleted from the source, and the sync branch does not fire. -/
theorem onEdit_migrate_eq (now : String) (arch : String → Bool) (e : EditEvent)
    (ss : Spreadsheet) (sheet tgt : Sheet)
    (hsrc : getSheetByName ss e.sheetName = some sheet) (hcol : e.col = 5)
    (hvne : valueAt sheet.grid e.row 5 ≠ "")
    (htgt : getSheetByName ss (valueAt sheet.grid e.row 5) = some tgt) :
    onEdit now arch true e ss =
      { emptyResult (deleteRowInSheet
          (appendRowToSheet ss (valueAt sheet.grid e.row 5)
            (getRowValues sheet.grid e.row 1 (getLastColumn sheet.grid)))
          e.sheetName e.row) with
        logs := [LogEntry.movedRow e.row (valueAt sheet.grid e.row 5)] } := by
  rw [onEdit_some now arch true e ss sheet hsrc, if_pos hcol, if_pos hvne, htgt]
  show runSyncBranch now arch e _ = _
  rw [runSyncBranch_col5 now arch e _ hcol]

/-- `onEdit` on a failed `appendRow` host write: the exception propagates
before `deleteRow`, leaving the spreadsheet untouched. -/
theorem onEdit_migrate_fail (now : String) (arch : String → Bool) (e : EditEvent)
    (ss : Spreadsheet) (sheet tgt : Sheet)
    (hsrc : getSheetByName ss e.sheetName = some sheet) (hcol : e.col = 5)
    (hvne : valueAt sheet.grid e.row 5 ≠ "")
    (htgt : getSheetByName ss (valueAt sheet.grid e.row 5) = some tgt) :
    onEdit now arch false e ss
      = { emptyResult ss with err := some (SyncErr.appendFailed e.sheetName) } := by
  rw [onEdit_some now arch false e ss sheet hsrc, if_pos hcol, if_pos hvne, htgt]
  rfl

/-- C3: for every status-column edit whose value names an existing sheet
(other than the edited sheet itself — the self-move case is flagged as an
open question in the design notes, §9), row migration removes the edited row
from the source sheet if and only if appending it to the destination sheet
succeeds: on a successful append the destination's last row is exactly the
original row's values (over the source's column span) and the source loses
the row at that index with subsequent rows shifting up (`List.eraseIdx`);
on a failed append nothing changes at all. -/
theorem claim3_migration_moves_row (now : String) (arch : String → Bool)
    (e : EditEvent) (ss : Spreadsheet) (src tgt : Sheet) (v : String)
    (hsrc : getSheetByName ss e.sheetName = some src) (hcol : e.col = 5)
    (hv : valueAt src.grid e.row 5 = v) (hvne : v ≠ "")
    (htgt : getSheetByName ss v = some tgt) (hne : v ≠ e.sheetName) :
    (∃ tgt', getSheetByName (onEdit now arch true e ss).ss v = some tgt' ∧
      getLastRow tgt'.grid = getLastRow tgt.grid + 1 ∧
      getRowValues tgt'.grid (getLastRow tgt.grid + 1) 1 (getLastColumn src.grid)
        = getRowValues src.grid e.row 1 (getLastColumn src.grid) ∧
      ∃ src', getSheetByName (onEdit now arch true e ss).ss e.sheetName = some src' ∧
        src'.grid = src.grid.eraseIdx (e.row - 1)) ∧
    ((onEdit now arch false e ss).ss = ss ∧
      (onEdit now arch false e ss).err = some (SyncErr.appendFailed e.sheetName)) := by
  have hL5 : 5 ≤ getLastColumn src.grid :=
    le_getLastColumn_of_value src.grid e.row 5 (by rw [hv]; exact hvne)
  have hvne' : valueAt src.grid e.row 5 ≠ "" := by rw [hv]; exact hvne
  have htgt' : getSheetByName ss (valueAt src.grid e.row 5) = some tgt := by
    rw [hv]; exact htgt
  constructor
  · rw [onEdit_migrate_eq now arch e ss src tgt hsrc hcol hvne' htgt']
    rw [hv]
    show ∃ tgt', getSheetByName (deleteRowInSheet (appendRowToSheet ss v
      (getRowValues src.grid e.row 1 (getLastColumn src.grid))) e.sheetName e.row) v
        = some tgt' ∧ _
    have l1 : getSheetByName (appendRowToSheet ss v
        (getRowValues src.grid e.row 1 (getLastColumn src.grid))) v
        = some { tgt with grid := setRow tgt.grid (getLastRow tgt.grid + 1) 1 (getRowValues src.grid e.row 1 (getLastColumn src.grid)) } := by
      unfold appendRowToSheet
      exact getSheetByName_updateSheet_self ss v _ tgt htgt
    have l2 : getSheetByName (deleteRowInSheet (appendRowToSheet ss v
        (getRowValues src.grid e.row 1 (getLastColumn src.grid))) e.sheetName e.row) v
        = some { tgt with grid := setRow tgt.grid (getLastRow tgt.grid + 1) 1 (getRowValues src.grid e.row 1 (getLastColumn src.grid)) } := by
      unfold deleteRowInSheet
      rw [getSheetByName_updateSheet_ne _ _ _ _ hne]
      exact l1
    have hlen : (getRowValues src.grid e.row 1 (getLastColumn src.grid)).length
        = getLastColumn src.grid := getRowValues_length e.row _ src.grid 1
    have hnonempty : ∃ j, j < (getRowValues src.grid e.row 1
        (getLastColumn src.grid)).length ∧
        (getRowValues src.grid e.row 1 (getLastColumn src.grid)).getD j "" ≠ "" := by
      refine ⟨4, by rw [hlen]; omega, ?_⟩
      rw [getRowValues_getD e.row (getLastColumn src.grid) 4 src.grid 1 (by omega)]
      show valueAt src.grid e.row 5 ≠ ""
      exact hvne'
    have hlast : getLastRow (setRow tgt.grid (getLastRow tgt.grid + 1) 1
        (getRowValues src.grid e.row 1 (getLastColumn src.grid)))
        = getLastRow tgt.grid + 1 :=
      getLastRow_setRow_append tgt.grid _ hnonempty
    have hread : getRowValues (setRow tgt.grid (getLastRow tgt.grid + 1) 1
        (getRowValues src.grid e.row 1 (getLastColumn src.grid)))
        (getLastRow tgt.grid + 1) 1 (getLastColumn src.grid)
        = getRowValues src.grid e.row 1 (getLastColumn src.grid) := by
      have := getRowValues_setRow (getLastRow tgt.grid + 1) (by omega)
        (getRowValues src.grid e.row 1 (getLastColumn src.grid)) tgt.grid 1 (by omega)
      rwa [hlen] at this
    refine ⟨_, l2, hlast, hread, ?_⟩
    have m1 : getSheetByName (appendRowToSheet ss v
        (getRowValues src.grid e.row 1 (getLastColumn src.grid))) e.sheetName
        = some src := by
      unfold appendRowToSheet
      rw [getSheetByName_updateSheet_ne _ _ _ _ (fun hh => hne hh.symm)]
      exact hsrc
    exact ⟨_, getSheetByName_updateSheet_self _ _ _ src m1, rfl⟩
  · rw [onEdit_migrate_fail now arch e ss src tgt hsrc hcol hvne' htgt']
    exact ⟨rfl, rfl⟩

/-- The source sheet of the C3 witness. -/
def c3src : Sheet :=
  { name := "Orders",
    grid := [[wCell "o1", wCell "o2", emptyCell, emptyCell, wCell "Shipped"], [wCell "p1"]] }

/-- The target sheet of the C3 witness. -/
def c3tgt : Sheet := { name := "Shipped", grid := [[wCell "s1"]] }

/-- The spreadsheet of the C3 witness. -/
def c3ss : Spreadsheet := [c3src, c3tgt]

/-- Editing row 1, column 5 of `Orders`. -/
def c3e : EditEvent := { sheetName := "Orders", row := 1, col := 5 }

/-- Witness for C3 at a concrete input: the `Orders` row whose status became
`Shipped` lands as the new last row of `Shipped` and disappears from
`Orders`; with a failing append nothing changes. -/
theorem claim3_witness :
    (∃ tgt', getSheetByName (onEdit "t" (fun _ => true) true c3e c3ss).ss "Shipped"
        = some tgt' ∧
      getLastRow tgt'.grid = getLastRow c3tgt.grid + 1 ∧
      getRowValues tgt'.grid (getLastRow c3tgt.grid + 1) 1 (getLastColumn c3src.grid)
        = getRowValues c3src.grid c3e.row 1 (getLastColumn c3src.grid) ∧
      ∃ src', getSheetByName (onEdit "t" (fun _ => true) true c3e c3ss).ss c3e.sheetName
          = some src' ∧
        src'.grid = c3src.grid.eraseIdx (c3e.row - 1)) ∧
    ((onEdit "t" (fun _ => true) false c3e c3ss).ss = c3ss ∧
      (onEdit "t" (fun _ => true) false c3e c3ss).err
        = some (SyncErr.appendFailed c3e.sheetName)) :=
  claim3_migration_moves_row "t" (fun _ => true) c3e c3ss c3src c3tgt "Shipped"
    (by decide) (by decide) (by decide) (by decide) (by decide) (by decide)

/-- The spreadsheet of the C5 missing-target witness: the status value
`Nowhere` names no sheet. -/
def c5ss : Spreadsheet :=
  [ { name := "Orders",
      grid := [[wCell "o1", emptyCell, emptyCell, emptyCell, wCell "Nowhere"]] } ]

/-- Editing row 2, column 5 of `Orders` (an empty status cell). -/
def c3e2 : EditEvent := { sheetName := "Orders", row := 2, col := 5 }

/-- Witness for C5 at concrete inputs: an empty status value leaves
everything untouched with no alert; a status value naming no sheet leaves
everything untouched and raises the does-not-exist alert. -/
theorem claim5_witness :
    onEdit "t" (fun _ => true) true c3e2 c3ss = emptyResult c3ss ∧
    onEdit "t" (fun _ => true) true c3e c5ss
      = { emptyResult c5ss with alerts := [Alert.targetSheetNotFound "Nowhere"] } := by
  constructor
  · exact (claim5_empty_or_missing_status "t" (fun _ => true) true c3e2 c3ss c3src
      (by decide) (by decide)).1 (by decide)
  · exact (claim5_empty_or_missing_status "t" (fun _ => true) true c3e c5ss
      { name := "Orders",
        grid := [[wCell "o1", emptyCell, emptyCell, emptyCell, wCell "Nowhere"]] }
      (by decide) (by decide)).2 "Nowhere" (by decide) (by decide) (by decide)

/-- A cell beyond the content region holds the empty value. -/
theorem valueAt_eq_empty_of_gt (g : Grid) (r c : Nat) (h : getLastRow g < r) :
    valueAt g r c = "" := by
  by_contra hne
  have := le_getLastRow_of_value g r c hne
  omega

theorem valueAt_backupHeaderWrites_1 (now : String) (source : Sheet) (saver : Grid) :
    valueAt (backupHeaderWrites now source saver) (getLastRow saver + 1) 1 = now := by
  unfold backupHeaderWrites
  rw [valueAt_setRowStyle _ _ _ backupHeaderStyle (fun cl => rfl),
      valueAt_setValue, if_neg (by omega),
      valueAt_setValue, if_neg (by omega),
      valueAt_setValue, if_pos ⟨rfl, rfl⟩]

/-- C8: for every empty source sheet (no content rows or no content
columns), archiving it writes the timestamped header at the next free row,
a single `(No data to backup)` marker row right after it (the marker string
the code uses for the spec's "(no data)" marker), and no data rows: every
other cell of the marker row and every cell below it is empty. -/
theorem claim8_empty_backup_marker (now : String) (source : Sheet) (g : Grid)
    (h : ¬(getLastRow source.grid > 0 ∧ getLastColumn source.grid > 0)) :
    valueAt (backupSheetData now source g) (getLastRow g + 1) 1 = now ∧
    valueAt (backupSheetData now source g) (getLastRow g + 1) 2 = source.name ∧
    valueAt (backupSheetData now source g) (getLastRow g + 1) 3 = "--- Data Below ---" ∧
    valueAt (backupSheetData now source g) (getLastRow g + 2) 1 = "(No data to backup)" ∧
    (∀ c, 2 ≤ c → valueAt (backupSheetData now source g) (getLastRow g + 2) c = "") ∧
    (∀ r c, getLastRow g + 2 < r → valueAt (backupSheetData now source g) r c = "") := by
  have hlr : getLastRow source.grid = 0 := by
    by_cases h1 : getLastRow source.grid > 0
    · by_cases h2 : getLastColumn source.grid > 0
      · exact absurd ⟨h1, h2⟩ h
      · have := getLastRow_eq_zero_of_lastCol source.grid (by omega)
        omega
    · omega
  rw [backupSheetData_eq, if_neg h, hlr]
  refine ⟨?_, ?_, ?_, ?_, ?_, ?_⟩
  · rw [valueAt_setValue, if_neg (by omega),
        valueAt_setValue, if_neg (by omega),
        valueAt_backupHeaderWrites_1]
  · rw [valueAt_setValue, if_neg (by omega),
        valueAt_setValue, if_neg (by omega),
        valueAt_backupHeaderWrites_2]
  · rw [valueAt_setValue, if_neg (by omega),
        valueAt_setValue, if_neg (by omega),
        valueAt_backupHeaderWrites_3]
  · rw [valueAt_setValue, if_neg (by omega),
        valueAt_setValue, if_pos ⟨by omega, rfl⟩]
  · intro c hc
    rw [valueAt_setValue, if_neg (by omega),
        valueAt_setValue, if_neg (by omega)]
    unfold backupHeaderWrites valueAt
    rw [getCell_setRowStyle_ne_row _ _ _ _ (by omega),
        getCell_setValue_ne _ _ _ _ _ _ (by omega),
        getCell_setValue_ne _ _ _ _ _ _ (by omega),
        getCell_setValue_ne _ _ _ _ _ _ (by omega)]
    exact valueAt_eq_empty_of_gt g _ c (by omega)
  · intro r c hr
    rw [valueAt_setValue]
    by_cases hb : r - 1 = getLastRow g + 1 + 0 + 2 - 1 ∧ c - 1 = 1 - 1
    · rw [if_pos hb]
    · rw [if_neg hb, valueAt_setValue, if_neg (by omega)]
      unfold backupHeaderWrites valueAt
      rw [getCell_setRowStyle_ne_row _ _ _ _ (by omega),
          getCell_setValue_ne _ _ _ _ _ _ (by omega),
          getCell_setValue_ne _ _ _ _ _ _ (by omega),
          getCell_setValue_ne _ _ _ _ _ _ (by omega)]
      exact valueAt_eq_empty_of_gt g _ c (by omega)

/-- The empty source sheet of the C8 witness. -/
def c8src : Sheet := { name := "Empty", grid := [] }

/-- Witness for C8 at a concrete input: backing up an empty sheet into the
archive (header at row 1) writes the record header at row 2, the marker at
row 3 column 1, and nothing else. -/
theorem claim8_witness :
    valueAt (backupSheetData "t" c8src wSaverGrid) 2 1 = "t" ∧
    valueAt (backupSheetData "t" c8src wSaverGrid) 2 2 = "Empty" ∧
    valueAt (backupSheetData "t" c8src wSaverGrid) 3 1 = "(No data to backup)" ∧
    valueAt (backupSheetData "t" c8src wSaverGrid) 3 2 = "" ∧
    valueAt (backupSheetData "t" c8src wSaverGrid) 4 1 = "" := by
  obtain ⟨h1, h2, h3, h4, h5, h6⟩ := claim8_empty_backup_marker "t" c8src wSaverGrid
    (by decide)
  exact ⟨h1, h2, h4, h5 2 (by omega), h6 4 1 (by decide)⟩

/-- First backed-up sheet of the C6 scenario. -/
def c6src1 : Sheet := { name := "Src1", grid := [[wCell "x"]] }

/-- Second backed-up sheet of the C6 scenario. -/
def c6src2 : Sheet := { name := "Src2", grid := [[wCell "y"]] }

/-- Archive grid after backing up `Src1` into a fresh archive. -/
def c6b1 : Grid := backupSheetData "t1" c6src1 wSaverGrid

/-- Archive grid after then backing up `Src2`. -/
def c6b2 : Grid := backupSheetData "t2" c6src2 c6b1

/-- C6, evaluated at the failing input: backing up `Src1` (one row `x`)
into an archive holding only its row-1 header copies the data verbatim
(values and backgrounds) immediately after the record header at row 2 —
that part of the claim holds — but the blank-separator step fails: the code
writes `""` at `nextRow + lastRow + 2` (row 5, skipping row 4), and an empty
string adds no content, so `getLastRow` stays 3 and the next record's header
lands on row 4, immediately after `Src1`'s data row 3.  There is no blank
row between the copied block and the next archive record, not the claimed
exactly one. -/
theorem claim6_backup_separator_bug :
    valueAt c6b1 2 2 = "Src1" ∧
    valueAt c6b1 2 3 = "--- Data Below ---" ∧
    valueAt c6b1 3 1 = "x" ∧
    (getCell c6b1 3 1).background = (getCell c6src1.grid 1 1).background ∧
    getLastRow c6b1 = 3 ∧
    valueAt c6b2 4 2 = "Src2" ∧
    valueAt c6b2 4 3 = "--- Data Below ---" := by
  decide

/-- C9: whenever `syncSheets` runs with the control sheet present but the
archive sheet (`DataSaver`) absent, it creates the archive sheet and writes
its bold, `#f3f3f3`-background three-cell header row
`Deleted Date | Sheet Name | Data Starts Below` — this happens in the
get-or-create step, before the create loop and the delete loop run, and the
header row is still intact in the final state; so even a sync whose control
list exactly matches the existing sheets adds one new sheet that appears in
neither the control list nor the prior sheet set (the witness exercises
exactly that scenario). -/
theorem claim9_datasaver_bootstrap (now : String) (arch : String → Bool)
    (ss : Spreadsheet) (c : Sheet)
    (hc : getSheetByName ss CONFIG.controlSheet = some c)
    (hd : getSheetByName ss CONFIG.dataSaverSheet = none) :
    ∃ saver : Sheet,
      getSheetByName (syncSheets now arch ss).ss CONFIG.dataSaverSheet = some saver ∧
      (getCell saver.grid 1 1).value = "Deleted Date" ∧
      (getCell saver.grid 1 2).value = "Sheet Name" ∧
      (getCell saver.grid 1 3).value = "Data Starts Below" ∧
      (getCell saver.grid 1 1).fontWeight = "bold" ∧
      (getCell saver.grid 1 2).fontWeight = "bold" ∧
      (getCell saver.grid 1 3).fontWeight = "bold" ∧
      (getCell saver.grid 1 1).background = "#f3f3f3" ∧
      (getCell saver.grid 1 2).background = "#f3f3f3" ∧
      (getCell saver.grid 1 3).background = "#f3f3f3" := by
  rw [syncSheets_some now arch ss c hc]
  unfold syncSheetsBody
  dsimp only
  have hsaver1 : getSheetByName (ensureDataSaver ss) CONFIG.dataSaverSheet
      = some { name := CONFIG.dataSaverSheet, grid := dataSaverHeaderGrid } := by
    rw [ensureDataSaver_absent ss hd,
        getSheetByName_append_right _ _ _ (not_mem_of_getSheetByName_none _ _ hd)]
    simp [getSheetByName]
  have hlook1 := createLoop_lookup_preserve (sheetNames (ensureDataSaver ss))
    (readControlNames c.grid) (emptyResult (ensureDataSaver ss)) CONFIG.dataSaverSheet
    _ hsaver1
  have hmem1 : CONFIG.dataSaverSheet ∈ sheetNames (createLoop
      (sheetNames (ensureDataSaver ss)) (readControlNames c.grid)
      (emptyResult (ensureDataSaver ss))).ss :=
    mem_sheetNames_of_getSheetByName _ _ _ hlook1
  have hPinit : 1 ≤ getLastRow (saverGridOf (createLoop (sheetNames (ensureDataSaver ss))
        (readControlNames c.grid) (emptyResult (ensureDataSaver ss))).ss) ∧
      getCell (saverGridOf (createLoop (sheetNames (ensureDataSaver ss))
        (readControlNames c.grid) (emptyResult (ensureDataSaver ss))).ss) 1 1
        = getCell dataSaverHeaderGrid 1 1 ∧
      getCell (saverGridOf (createLoop (sheetNames (ensureDataSaver ss))
        (readControlNames c.grid) (emptyResult (ensureDataSaver ss))).ss) 1 2
        = getCell dataSaverHeaderGrid 1 2 ∧
      getCell (saverGridOf (createLoop (sheetNames (ensureDataSaver ss))
        (readControlNames c.grid) (emptyResult (ensureDataSaver ss))).ss) 1 3
        = getCell dataSaverHeaderGrid 1 3 := by
    rw [saverGridOf_eq _ _ hlook1]
    exact ⟨by decide, rfl, rfl, rfl⟩
  have hstable : ∀ (sh : Sheet) (g : Grid),
      (1 ≤ getLastRow g ∧ getCell g 1 1 = getCell dataSaverHeaderGrid 1 1 ∧
        getCell g 1 2 = getCell dataSaverHeaderGrid 1 2 ∧
        getCell g 1 3 = getCell dataSaverHeaderGrid 1 3) →
      (1 ≤ getLastRow (backupSheetData now sh g) ∧
        getCell (backupSheetData now sh g) 1 1 = getCell dataSaverHeaderGrid 1 1 ∧
        getCell (backupSheetData now sh g) 1 2 = getCell dataSaverHeaderGrid 1 2 ∧
        getCell (backupSheetData now sh g) 1 3 = getCell dataSaverHeaderGrid 1 3) := by
    intro sh g hg
    obtain ⟨hge, h1, h2, h3⟩ := hg
    have hadv := getLastRow_backupSheetData_ge now sh g
    exact ⟨by omega,
      (getCell_backupSheetData_below now sh g 1 1 (by omega) hge).trans h1,
      (getCell_backupSheetData_below now sh g 1 2 (by omega) hge).trans h2,
      (getCell_backupSheetData_below now sh g 1 3 (by omega) hge).trans h3⟩
  by_cases herr1 : (createLoop (sheetNames (ensureDataSaver ss)) (readControlNames c.grid)
      (emptyResult (ensureDataSaver ss))).err = none
  · rw [if_pos herr1]
    obtain ⟨hmem2, hP2⟩ := deleteLoop_saver_preserve now arch (readControlNames c.grid)
      (fun g => 1 ≤ getLastRow g ∧ getCell g 1 1 = getCell dataSaverHeaderGrid 1 1 ∧
        getCell g 1 2 = getCell dataSaverHeaderGrid 1 2 ∧
        getCell g 1 3 = getCell dataSaverHeaderGrid 1 3)
      hstable (sheetNames (ensureDataSaver ss)) _ hmem1 hPinit
    obtain ⟨saver, hsv⟩ := getSheetByName_isSome_of_mem _ _ hmem2
    rw [saverGridOf_eq _ _ hsv] at hP2
    obtain ⟨_, p1, p2, p3⟩ := hP2
    have hfacts : (getCell saver.grid 1 1).value = "Deleted Date" ∧
        (getCell saver.grid 1 2).value = "Sheet Name" ∧
        (getCell saver.grid 1 3).value = "Data Starts Below" ∧
        (getCell saver.grid 1 1).fontWeight = "bold" ∧
        (getCell saver.grid 1 2).fontWeight = "bold" ∧
        (getCell saver.grid 1 3).fontWeight = "bold" ∧
        (getCell saver.grid 1 1).background = "#f3f3f3" ∧
        (getCell saver.grid 1 2).background = "#f3f3f3" ∧
        (getCell saver.grid 1 3).background = "#f3f3f3" := by
      rw [p1, p2, p3]
      exact ⟨by decide, by decide, by decide, by decide, by decide, by decide,
        by decide, by decide, by decide⟩
    by_cases herr2 : (deleteLoop now arch (readControlNames c.grid)
        (sheetNames (ensureDataSaver ss))
        (createLoop (sheetNames (ensureDataSaver ss)) (readControlNames c.grid)
          (emptyResult (ensureDataSaver ss)))).err = none
    · rw [if_pos herr2]
      exact ⟨saver, hsv, hfacts.1, hfacts.2.1, hfacts.2.2.1, hfacts.2.2.2.1,
        hfacts.2.2.2.2.1, hfacts.2.2.2.2.2.1, hfacts.2.2.2.2.2.2.1,
        hfacts.2.2.2.2.2.2.2.1, hfacts.2.2.2.2.2.2.2.2⟩
    · rw [if_neg herr2]
      exact ⟨saver, hsv, hfacts.1, hfacts.2.1, hfacts.2.2.1, hfacts.2.2.2.1,
        hfacts.2.2.2.2.1, hfacts.2.2.2.2.2.1, hfacts.2.2.2.2.2.2.1,
        hfacts.2.2.2.2.2.2.2.1, hfacts.2.2.2.2.2.2.2.2⟩
  · rw [if_neg herr1]
    exact ⟨{ name := CONFIG.dataSaverSheet, grid := dataSaverHeaderGrid }, hlook1,
      by decide, by decide, by decide, by decide, by decide, by decide,
      by decide, by decide, by decide⟩

/-- The spreadsheet for the C9 witness: control list `[A, B]` exactly
matching the existing non-protected sheets, and no `DataSaver`. -/
def c9ss : Spreadsheet :=
  [ { name := "DataValidation", grid := c1ControlGrid },
    { name := "A", grid := [] },
    { name := "B", grid := [] },
    { name := "Sheet1", grid := [] } ]

/-- Witness for C9 at a concrete input: a sync whose control list exactly
matches the existing sheets still creates `DataSaver` with its styled header
row. -/
theorem claim9_witness :
    ∃ saver : Sheet,
      getSheetByName (syncSheets "t" (fun _ => true) c9ss).ss CONFIG.dataSaverSheet
        = some saver ∧
      (getCell saver.grid 1 1).value = "Deleted Date" ∧
      (getCell saver.grid 1 2).value = "Sheet Name" ∧
      (getCell saver.grid 1 3).value = "Data Starts Below" ∧
      (getCell saver.grid 1 1).fontWeight = "bold" ∧
      (getCell saver.grid 1 2).fontWeight = "bold" ∧
      (getCell saver.grid 1 3).fontWeight = "bold" ∧
      (getCell saver.grid 1 1).background = "#f3f3f3" ∧
      (getCell saver.grid 1 2).background = "#f3f3f3" ∧
      (getCell saver.grid 1 3).background = "#f3f3f3" :=
  claim9_datasaver_bootstrap "t" (fun _ => true) c9ss
    { name := "DataValidation", grid := c1ControlGrid } (by decide) (by decide)

/-- The spreadsheet for the C7 scenarios: the control list contains `A`
twice; `Doomed` is unlisted and should be swept by step 2. -/
def c7ss : Spreadsheet :=
  [ { name := "DataValidation", grid := [[], [wCell "A"], [wCell "A"]] },
    { name := "DataSaver", grid := wSaverGrid },
    { name := "Sheet1", grid := [] },
    { name := "Doomed", grid := [[wCell "d"]] } ]

/-- Counterexample to C7 as stated: with the duplicate control name `A`, the
second `insertSheet("A")` throws `sheetExists` — there is no skip-with-log
(the only log entry is the first creation) and the duplicate IS fatal to the
sync pass: the delete step never runs, so the unlisted sheet `Doomed` is
neither archived nor deleted. -/
theorem claim7_counterexample :
    (syncSheets "t" (fun _ => true) c7ss).err = some (SyncErr.sheetExists "A") ∧
    (syncSheets "t" (fun _ => true) c7ss).deleted = [] ∧
    "Doomed" ∈ sheetNames (syncSheets "t" (fun _ => true) c7ss).ss ∧
    (syncSheets "t" (fun _ => true) c7ss).logs = [LogEntry.createdSheet "A"] := by
  decide

/-- C7 amended: a control name already present in the pre-sync snapshot is
skipped silently — no create and no log entry for it — and the batch
continues; but a duplicate name within the control list itself makes the
second `insertSheet` throw, aborting the remainder of the pass: nothing is
deleted and the spreadsheet holds exactly the snapshot plus the sheets
created before the exception. -/
theorem claim7_duplicate_create_aborts (now : String) (arch : String → Bool)
    (ss : Spreadsheet) (n : String) (hn : n ∈ sheetNames ss) :
    n ∉ (syncSheets now arch ss).created ∧
    LogEntry.createdSheet n ∉ (syncSheets now arch ss).logs ∧
    (∀ m, (syncSheets now arch ss).err = some (SyncErr.sheetExists m) →
      (syncSheets now arch ss).deleted = [] ∧
      sheetNames (syncSheets now arch ss).ss
        = sheetNames (ensureDataSaver ss) ++ (syncSheets now arch ss).created) := by
  rcases hctrl : getSheetByName ss CONFIG.controlSheet with _ | c
  · rw [syncSheets_none now arch ss hctrl]
    exact ⟨by simp [emptyResult], by simp [emptyResult], fun m hm => absurd hm (by simp [emptyResult])⟩
  · rw [syncSheets_some now arch ss c hctrl]
    unfold syncSheetsBody
    dsimp only
    obtain ⟨new, k1, k2, k3, k4, k5, k6⟩ :=
      createLoop_general (sheetNames (ensureDataSaver ss)) (readControlNames c.grid)
        (emptyResult (ensureDataSaver ss))
    have hsnap : n ∈ sheetNames (ensureDataSaver ss) := mem_sheetNames_ensureDataSaver ss n hn
    have hnnew : n ∉ new := fun h => k4 n h hsnap
    have hncreated : n ∉ (createLoop (sheetNames (ensureDataSaver ss))
        (readControlNames c.grid) (emptyResult (ensureDataSaver ss))).created := by
      rw [k1]
      intro h
      rcases List.mem_append.mp h with h1 | h1
      · exact absurd h1 (by simp [emptyResult])
      · exact hnnew h1
    have hnlogs : LogEntry.createdSheet n ∉ (createLoop (sheetNames (ensureDataSaver ss))
        (readControlNames c.grid) (emptyResult (ensureDataSaver ss))).logs := by
      rw [k3]
      intro h
      rcases List.mem_append.mp h with h1 | h1
      · exact absurd h1 (by simp [emptyResult])
      · obtain ⟨m, hm, hmeq⟩ := List.mem_map.mp h1
        cases hmeq
        exact hnnew hm
    by_cases herr1 : (createLoop (sheetNames (ensureDataSaver ss)) (readControlNames c.grid)
        (emptyResult (ensureDataSaver ss))).err = none
    · rw [if_pos herr1]
      obtain ⟨dnew, hdlogs⟩ := deleteLoop_logs_mono now arch (readControlNames c.grid)
        (sheetNames (ensureDataSaver ss))
        (createLoop (sheetNames (ensureDataSaver ss)) (readControlNames c.grid)
          (emptyResult (ensureDataSaver ss)))
      have hdcreated := (deleteLoop_alerts_created now arch (readControlNames c.grid)
        (sheetNames (ensureDataSaver ss))
        (createLoop (sheetNames (ensureDataSaver ss)) (readControlNames c.grid)
          (emptyResult (ensureDataSaver ss)))).2
      have hnlogs2 : LogEntry.createdSheet n ∉ (deleteLoop now arch (readControlNames c.grid)
          (sheetNames (ensureDataSaver ss))
          (createLoop (sheetNames (ensureDataSaver ss)) (readControlNames c.grid)
            (emptyResult (ensureDataSaver ss)))).logs := by
        rw [hdlogs]
        intro h
        rcases List.mem_append.mp h with h1 | h1
        · exact hnlogs h1
        · obtain ⟨m, _, hmeq⟩ := List.mem_map.mp h1
          exact absurd hmeq (by simp)
      by_cases herr2 : (deleteLoop now arch (readControlNames c.grid)
          (sheetNames (ensureDataSaver ss))
          (createLoop (sheetNames (ensureDataSaver ss)) (readControlNames c.grid)
            (emptyResult (ensureDataSaver ss)))).err = none
      · rw [if_pos herr2]
        refine ⟨by rw [show ({ (deleteLoop now arch (readControlNames c.grid) (sheetNames (ensureDataSaver ss)) (createLoop (sheetNames (ensureDataSaver ss)) (readControlNames c.grid) (emptyResult (ensureDataSaver ss)))) with logs := _ } : SyncResult).created = _ from rfl, hdcreated]; exact hncreated, ?_, ?_⟩
        · intro h
          rcases List.mem_append.mp h with h1 | h1
          · exact hnlogs2 h1
          · simp at h1
        · intro m hm
          rw [herr2] at hm
          exact absurd hm (by simp)
      · rw [if_neg herr2]
        refine ⟨by rw [hdcreated]; exact hncreated, hnlogs2, ?_⟩
        intro m hm
        rcases deleteLoop_err now arch (readControlNames c.grid)
          (sheetNames (ensureDataSaver ss))
          (createLoop (sheetNames (ensureDataSaver ss)) (readControlNames c.grid)
            (emptyResult (ensureDataSaver ss))) with h | ⟨s, h⟩
        · rw [h, herr1] at hm
          exact absurd hm (by simp)
        · rw [h] at hm
          exact absurd hm (by simp)
    · rw [if_neg herr1]
      refine ⟨hncreated, hnlogs, ?_⟩
      intro m _
      constructor
      · rw [k5]
        rfl
      · rw [k2, k1]
        rfl

/-- Witness for the amended C7: on `c1ss` the already-present control name
`A` is neither created nor logged; on `c7ss` the duplicate `A` aborts the
pass with nothing deleted and only the first `A` created. -/
theorem claim7_witness :
    ("A" ∉ (syncSheets "t1" (fun _ => true) c1ss).created ∧
      LogEntry.createdSheet "A" ∉ (syncSheets "t1" (fun _ => true) c1ss).logs) ∧
    ((syncSheets "t" (fun _ => true) c7ss).deleted = [] ∧
      sheetNames (syncSheets "t" (fun _ => true) c7ss).ss
        = ["DataValidation", "DataSaver", "Sheet1", "Doomed", "A"]) := by
  have h1 := claim7_duplicate_create_aborts "t1" (fun _ => true) c1ss "A" (by decide)
  have h2 := claim7_duplicate_create_aborts "t" (fun _ => true) c7ss "Doomed" (by decide)
  obtain ⟨g1, g2⟩ := h2.2.2 "A" (by decide)
  exact ⟨⟨h1.1, h1.2.1⟩, g1, g2.trans (by decide)⟩

/-- Witness for C2 at concrete inputs: on `c1ss` (all archives succeed) the
deleted sheet `C` has a record in the final archive grid; on `c2ss` with the
archive write for `Doomed` failing, the run errors, `Doomed` is not deleted,
still exists, and no alert is issued. -/
theorem claim2_witness :
    ((fun _ => true : String → Bool) "C" = true ∧
      archiveHasRecordFor (saverGridOf (syncSheets "t1" (fun _ => true) c1ss).ss) "C"
        = true) ∧
    ("Doomed" ∈ sheetNames (syncSheets "t" c2arch c2ss).ss ∧
      "Doomed" ∉ (syncSheets "t" c2arch c2ss).deleted ∧
      (syncSheets "t" c2arch c2ss).alerts = []) := by
  refine ⟨(claim2_archive_before_delete "t1" (fun _ => true) c1ss (by decide)).1 "C"
    (by decide), ?_⟩
  exact (claim2_archive_before_delete "t" c2arch c2ss (by decide)).2 "Doomed" (by decide)

end GSheet
